import Mathlib

/-!
# GAMER: full-step update kernel and coarse-fine fix-up driver

A shallow embedding of

* `Hydro_FullStepUpdate` (src/Model_Hydro/CPU_Hydro/CPU_Shared_FullStepUpdate.cpp), host build:
  `CGPU_LOOP( idx_out, CUBE(PS2) )` is the sequential loop `for idx_out = 0 .. CUBE(PS2)-1`;
* `Flu_FixUp` (src/Fluid/Flu_FixUp.cpp).

`real` is modelled by `ℚ` (exact arithmetic).  Arrays are total functions on indices.
Compile-time switches and constants that live in headers outside the sources are gathered
in `Config`; routines of other translation units are gathered in `Ext`.
-/

namespace GAMER

/-! ## Macros -/

/-- Modelled from the spec: the macro `SQR` of the missing header, the square of its argument. -/
def SQR (a : Nat) : Nat := a * a

/-- Modelled from the spec: the macro `CUBE` of the missing header, the cube of its argument. -/
def CUBE (a : Nat) : Nat := a * a * a

/-- Modelled from the spec: the macro `IDX321( i, j, k, Ni, Nj )` of the missing header,
the row-major offset `( k*Nj + j )*Ni + i` with `i` running fastest. -/
def IDX321 (i j k Ni Nj : Nat) : Nat := (k * Nj + j) * Ni + i

/-- Modelled from the spec: the macro `FMAX( a, b )` of the missing header,
`( a > b ) ? a : b`. -/
def FMAX (a b : ℚ) : ℚ := if a > b then a else b

/-- Modelled from the spec: field index of the mass density, first of the ordered tuple
density, three momenta, total energy. -/
def DENS : Nat := 0

/-- Modelled from the spec: field index of the x momentum. -/
def MOMX : Nat := 1

/-- Modelled from the spec: field index of the y momentum. -/
def MOMY : Nat := 2

/-- Modelled from the spec: field index of the z momentum. -/
def MOMZ : Nat := 3

/-- Modelled from the spec: field index of the total energy. -/
def ENGY : Nat := 4

/-- Modelled from the spec: number of fluid fields (density, three momenta, total energy);
the passive scalars follow them. -/
def NCOMP_FLUID : Nat := 5

/-- Modelled from the spec: index of the x component in the face-centred magnetic array. -/
def MAGX : Nat := 0

/-- Modelled from the spec: index of the y component in the face-centred magnetic array. -/
def MAGY : Nat := 1

/-- Modelled from the spec: index of the z component in the face-centred magnetic array. -/
def MAGZ : Nat := 2

/-! ## Build configuration -/

/-- Compile-time switches and constants used by the kernel; their definitions are in
headers that are not part of the sources, so they are parameters here. -/
structure Config where
  /-- `#ifdef MHD` -/
  MHD : Bool
  /-- `#ifdef BAROTROPIC_EOS` -/
  BAROTROPIC_EOS : Bool
  /-- `#ifdef DUAL_ENERGY` -/
  DUAL_ENERGY : Bool
  /-- patch-group width -/
  PS2 : Nat
  /-- ghost-zone width of the input block -/
  FLU_GHOST_SIZE : Nat
  /-- width of the input block -/
  FLU_NXT : Nat
  /-- stride of the flux arrays -/
  N_FL_FLUX : Nat
  /-- allocated width of the flux arrays -/
  N_FC_FLUX : Nat
  /-- number of passive scalars -/
  NCOMP_PASSIVE : Nat
  /-- field index of the dual-energy variable -/
  ENPY : Nat
  /-- floor of the passive scalars -/
  TINY_NUMBER : ℚ
  /-- placeholder real -/
  NULL_REAL : ℚ

/-- Modelled from the spec: `NCOMP_TOTAL` of the missing header, the fluid fields followed by
the passive scalars. -/
def Config.NCOMP_TOTAL (c : Config) : Nat := NCOMP_FLUID + c.NCOMP_PASSIVE

/-- One cell's conserved state, the local array `Output_1Cell[NCOMP_TOTAL]`. -/
abbrev Cell := Nat → ℚ

/-- The `EoS_t` object, of which the kernel reads `AuxArrayDevPtr_Flt[1]` and `[2]`. -/
structure EoS_t where
  /-- floating-point auxiliary array -/
  AuxArrayDevPtr_Flt : Nat → ℚ

/-- Routines called by the kernel whose bodies are in other translation units. -/
structure Ext where
  /-- `Hydro_CheckUnphysical( UNPHY_MODE_CONS, Output_1Cell, NULL, ..., UNPHY_SILENCE )` -/
  Hydro_CheckUnphysical : Cell → Bool
  /-- `Hydro_CheckMinEintInEngy( Dens, MomX, MomY, MomZ, Engy, MinEint, Emag )` -/
  Hydro_CheckMinEintInEngy : ℚ → ℚ → ℚ → ℚ → ℚ → ℚ → ℚ → ℚ
  /-- `MHD_GetCellCenteredBEnergy( Bx, By, Bz, Nx, Ny, Nz, i, j, k )` -/
  MHD_GetCellCenteredBEnergy :
    (Nat → ℚ) → (Nat → ℚ) → (Nat → ℚ) → Nat → Nat → Nat → Nat → Nat → Nat → ℚ
  /-- `Hydro_DualEnergyFix( Dens, MomX, MomY, MomZ, Engy, Enpy, DE_Status, Gamma_m1, _Gamma_m1,
  CheckMinPres, MinPres, DualEnergySwitch, Emag )`: the new values of the three
  arguments it may write, `(Engy, Enpy, DE_Status)`. -/
  Hydro_DualEnergyFix :
    ℚ → ℚ → ℚ → ℚ → ℚ → ℚ → Int → ℚ → ℚ → Bool → ℚ → ℚ → ℚ → ℚ × ℚ × Int

/-- Read-only arguments of `Hydro_FullStepUpdate`. -/
structure Args where
  /-- `g_Input[v][idx]` -/
  g_Input : Nat → Nat → ℚ
  /-- `g_FC_B[v][idx]` -/
  g_FC_B : Nat → Nat → ℚ
  /-- `g_Flux[d][v][idx]` -/
  g_Flux : Nat → Nat → Nat → ℚ
  /-- time step -/
  dt : ℚ
  /-- cell size -/
  dh : ℚ
  /-- density floor -/
  MinDens : ℚ
  /-- internal-energy floor -/
  MinEint : ℚ
  /-- dual-energy threshold -/
  DualEnergySwitch : ℚ
  /-- normalise the passive scalars -/
  NormPassive : Bool
  /-- number of scalars to normalise -/
  NNorm : Nat
  /-- indices of the scalars to normalise -/
  NormIdx : Nat → Nat
  /-- equation-of-state object -/
  EoS : EoS_t
  /-- current iteration -/
  Iteration : Int
  /-- maximum number of iterations -/
  MinMod_Max_Iter : Int

/-- Memory written by `Hydro_FullStepUpdate`: the output block, the dual-energy status array
and the cell `*FullStepFailure` (`none` when the pointer is `NULL`). -/
structure Mem where
  /-- `g_Output[v][idx]` -/
  g_Output : Nat → Nat → ℚ
  /-- `g_DE_Status[idx]` -/
  g_DE_Status : Nat → Int
  /-- `*FullStepFailure` -/
  FullStepFailure : Option Int

/-! ## The kernel -/

/-- `didx_flux[3] = { 1, N_FL_FLUX, SQR(N_FL_FLUX) }` -/
def didx_flux (c : Config) (d : Nat) : Nat :=
  match d with
  | 0 => 1
  | 1 => c.N_FL_FLUX
  | _ => SQR c.N_FL_FLUX

/-- `i_out = idx_out % PS2` -/
def i_out (c : Config) (idx_out : Nat) : Nat := idx_out % c.PS2

/-- `j_out = idx_out % size_ij / PS2` -/
def j_out (c : Config) (idx_out : Nat) : Nat := idx_out % SQR c.PS2 / c.PS2

/-- `k_out = idx_out / size_ij` -/
def k_out (c : Config) (idx_out : Nat) : Nat := idx_out / SQR c.PS2

/-- `idx_flux`, with the one-layer shift of the MHD build. -/
def idx_flux (c : Config) (idx_out : Nat) : Nat :=
  if c.MHD then
    IDX321 (i_out c idx_out + 1) (j_out c idx_out + 1) (k_out c idx_out + 1) c.N_FL_FLUX c.N_FL_FLUX
  else
    IDX321 (i_out c idx_out) (j_out c idx_out) (k_out c idx_out) c.N_FL_FLUX c.N_FL_FLUX

/-- `idx_in` -/
def idx_in (c : Config) (idx_out : Nat) : Nat :=
  IDX321 (i_out c idx_out + c.FLU_GHOST_SIZE) (j_out c idx_out + c.FLU_GHOST_SIZE)
    (k_out c idx_out + c.FLU_GHOST_SIZE) c.FLU_NXT c.FLU_NXT

/-- Step 1a: `dFlux[d][v]`. -/
def dFlux (c : Config) (a : Args) (idx_out d v : Nat) : ℚ :=
  if c.MHD then
    a.g_Flux d v (idx_flux c idx_out) - a.g_Flux d v (idx_flux c idx_out - didx_flux c d)
  else
    a.g_Flux d v (idx_flux c idx_out + didx_flux c d) - a.g_Flux d v (idx_flux c idx_out)

/-- Step 1b: `Output_1Cell[v] = g_Input[v][idx_in] - dt_dh*( dFlux[0][v] + dFlux[1][v] + dFlux[2][v] )`
for `v < NCOMP_TOTAL`. -/
def fluxUpdate (c : Config) (a : Args) (idx_out : Nat) : Cell := fun v =>
  if v < c.NCOMP_TOTAL then
    a.g_Input v (idx_in c idx_out)
      - a.dt / a.dh * (dFlux c a idx_out 0 v + dFlux c a idx_out 1 v + dFlux c a idx_out 2 v)
  else 0

/-- The magnetic energy `Emag` handed to the energy routines. -/
def Emag (c : Config) (E : Ext) (a : Args) (idx_out : Nat) : ℚ :=
  if c.MHD then
    E.MHD_GetCellCenteredBEnergy (a.g_FC_B MAGX) (a.g_FC_B MAGY) (a.g_FC_B MAGZ)
      c.PS2 c.PS2 c.PS2 (i_out c idx_out) (j_out c idx_out) (k_out c idx_out)
  else c.NULL_REAL

/-- The `#ifdef BAROTROPIC_EOS` block: the energy is replaced by the value returned by
`Hydro_CheckMinEintInEngy`. -/
def barotropicStep (c : Config) (E : Ext) (a : Args) (idx_out : Nat) (u : Cell) : Cell :=
  if c.BAROTROPIC_EOS then
    Function.update u ENGY
      (E.Hydro_CheckMinEintInEngy (u DENS) (u MOMX) (u MOMY) (u MOMZ) (u ENGY) a.MinEint
        (Emag c E a idx_out))
  else u

/-- Step 2a: `for v in NCOMP_FLUID .. NCOMP_TOTAL-1: Output_1Cell[v] = FMAX( Output_1Cell[v], TINY_NUMBER )`. -/
def floorPassive (c : Config) (u : Cell) : Cell := fun v =>
  if NCOMP_FLUID ≤ v ∧ v < c.NCOMP_TOTAL then FMAX (u v) c.TINY_NUMBER else u v

/-- Modelled from the spec: `Hydro_NormalizePassive( GasDens, Passive, NNorm, NormIdx )`, whose
body is not among the sources.  It rescales the `NNorm` listed passive scalars by the bulk
density divided by their sum: first the sum of `Passive[ NormIdx[n] ]` over `n < NNorm`, then
`Passive[ NormIdx[n] ] *= GasDens / sum` for each `n < NNorm` in turn. -/
def Hydro_NormalizePassive (GasDens : ℚ) (Passive : Nat → ℚ) (NNorm : Nat) (NormIdx : Nat → Nat) :
    Nat → ℚ :=
  let PassiveDens_Sum := (List.range NNorm).foldl (fun s n => s + Passive (NormIdx n)) 0
  let Norm := GasDens / PassiveDens_Sum
  (List.range NNorm).foldl (fun P n => Function.update P (NormIdx n) (P (NormIdx n) * Norm)) Passive

/-- Step 2b: `if ( NormPassive ) Hydro_NormalizePassive( Output_1Cell[DENS], Output_1Cell+NCOMP_FLUID, NNorm, NormIdx )`. -/
def normalizeStep (a : Args) (u : Cell) : Cell :=
  if a.NormPassive then
    fun v =>
      if NCOMP_FLUID ≤ v then
        Hydro_NormalizePassive (u DENS) (fun p => u (NCOMP_FLUID + p)) a.NNorm a.NormIdx
          (v - NCOMP_FLUID)
      else u v
  else u

/-- Step 2, the `#if ( NCOMP_PASSIVE > 0 )` block. -/
def passiveStep (c : Config) (a : Args) (u : Cell) : Cell :=
  if 0 < c.NCOMP_PASSIVE then normalizeStep a (floorPassive c u) else u

/-- Step 3, the `#ifdef DUAL_ENERGY` block: the call of `Hydro_DualEnergyFix` with
`CheckMinPres_No = false` and `MinPres = NULL_REAL`; the cell and the status it leaves. -/
def dualEnergyStep (c : Config) (E : Ext) (a : Args) (idx_out : Nat) (status : Int) (u : Cell) :
    Cell × Int :=
  if c.DUAL_ENERGY then
    let r := E.Hydro_DualEnergyFix (u DENS) (u MOMX) (u MOMY) (u MOMZ) (u ENGY) (u c.ENPY) status
      (a.EoS.AuxArrayDevPtr_Flt 1) (a.EoS.AuxArrayDevPtr_Flt 2) false c.NULL_REAL
      a.DualEnergySwitch (Emag c E a idx_out)
    (Function.update (Function.update u ENGY r.1) c.ENPY r.2.1, r.2.2)
  else (u, status)

/-- Steps 1 to 3 for one cell: the finalized `Output_1Cell` and the dual-energy status of the
cell, from the status stored for it before. -/
def cellUpdate (c : Config) (E : Ext) (a : Args) (status : Int) (idx_out : Nat) : Cell × Int :=
  dualEnergyStep c E a idx_out status
    (passiveStep c a (barotropicStep c E a idx_out (fluxUpdate c a idx_out)))

/-- One pass of the loop body for `idx_out`: steps 1 to 5.  The flag returned is `true` when the
body executes `return`. -/
def loopBody (c : Config) (E : Ext) (a : Args) (idx_out : Nat) (m : Mem) : Mem × Bool :=
  let r := cellUpdate c E a (m.g_DE_Status idx_out) idx_out
  let Output_1Cell := r.1
  -- 4. store results to the output array
  let m1 : Mem :=
    { g_Output := fun v idx =>
        if idx = idx_out ∧ v < c.NCOMP_TOTAL then Output_1Cell v else m.g_Output v idx
      g_DE_Status := fun idx => if idx = idx_out then r.2 else m.g_DE_Status idx
      FullStepFailure := m.FullStepFailure }
  -- 5. check unphysical cells within a patch group
  match m.FullStepFailure with
  | none => (m1, false)
  | some f =>
    let f1 : Int := if E.Hydro_CheckUnphysical Output_1Cell then 1 else f
    ({ m1 with FullStepFailure := some f1 }, decide (f1 = 1 ∧ a.Iteration < a.MinMod_Max_Iter))

/-- The loop `CGPU_LOOP( idx_out, CUBE(PS2) )` of the host build, with `n` passes left from `idx`. -/
def cellLoop (c : Config) (E : Ext) (a : Args) : Nat → Nat → Mem → Mem
  | 0, _, m => m
  | n + 1, idx, m =>
    let r := loopBody c E a idx m
    if r.2 then r.1 else cellLoop c E a n (idx + 1) r.1

/-- `Hydro_FullStepUpdate`: the memory on return. -/
def Hydro_FullStepUpdate (c : Config) (E : Ext) (a : Args) (m : Mem) : Mem :=
  cellLoop c E a (CUBE c.PS2) 0 m

/-- The finalized state of cell `idx` in a call entered with memory `m`. -/
def finalCell (c : Config) (E : Ext) (a : Args) (m : Mem) (idx : Nat) : Cell :=
  (cellUpdate c E a (m.g_DE_Status idx) idx).1

/-- The dual-energy status of cell `idx` in a call entered with memory `m`. -/
def finalStatus (c : Config) (E : Ext) (a : Args) (m : Mem) (idx : Nat) : Int :=
  (cellUpdate c E a (m.g_DE_Status idx) idx).2

/-- Cell `idx` is classified unphysical: `Hydro_CheckUnphysical` on its finalized state. -/
def unphysical (c : Config) (E : Ext) (a : Args) (m : Mem) (idx : Nat) : Bool :=
  E.Hydro_CheckUnphysical (finalCell c E a m idx)

/-! ## The coarse-fine fix-up driver -/

/-- Run-time options, the MHD build switch and the constants read by `Flu_FixUp`; the constants
are defined in headers that are not part of the sources. -/
structure FixUpOpt where
  /-- `#ifdef MHD` -/
  MHD : Bool
  /-- restriction enabled -/
  OPT__FIXUP_RESTRICT : Bool
  /-- electric-field correction enabled -/
  OPT__FIXUP_ELECTRIC : Bool
  /-- flux correction enabled -/
  OPT__FIXUP_FLUX : Bool
  /-- placeholder integer -/
  NULL_INT : Int
  /-- mask of all cell-centred fields -/
  _TOTAL : Int
  /-- mask of all face-centred magnetic fields -/
  _MAG : Int

/-- The part of the global `amr` object that `Flu_FixUp` reads, and the stored data of all
levels, of type `D`. -/
structure AMR (D : Type) where
  /-- `amr->FluSg[lv]` -/
  FluSg : Int → Int
  /-- `amr->MagSg[lv]` -/
  MagSg : Int → Int
  /-- fluid and magnetic data of all levels -/
  data : D

/-- A call of one of the three correctors, with its arguments. -/
inductive Call where
  | Flu_FixUp_Restrict (FaLv SonFluSg FaFluSg SonPotSg FaPotSg SonMagSg FaMagSg TVarCC TVarFC : Int)
  | MHD_FixUp_Electric (lv : Int)
  | Flu_FixUp_Flux (lv : Int)
  deriving DecidableEq, Repr

/-- The three correctors, whose bodies are in other translation units, as transformers of
the global state. -/
structure Correctors (D : Type) where
  /-- `Flu_FixUp_Restrict( FaLv, SonFluSg, FaFluSg, SonPotSg, FaPotSg, SonMagSg, FaMagSg, TVarCC, TVarFC )` -/
  Flu_FixUp_Restrict : Int → Int → Int → Int → Int → Int → Int → Int → Int → AMR D → AMR D
  /-- `MHD_FixUp_Electric( lv )` -/
  MHD_FixUp_Electric : Int → AMR D → AMR D
  /-- `Flu_FixUp_Flux( lv )` -/
  Flu_FixUp_Flux : Int → AMR D → AMR D

/-- Global state together with the record of the corrector calls made so far. -/
structure World (D : Type) where
  /-- the global `amr` object -/
  amr : AMR D
  /-- corrector calls, oldest first -/
  trace : List Call

/-- Block 1 of `Flu_FixUp`: the restriction. -/
def fixUpRestrict {D : Type} (o : FixUpOpt) (K : Correctors D) (lv : Int) (w : World D) : World D :=
  if o.OPT__FIXUP_RESTRICT then
    let SonMagSg := if o.MHD then w.amr.MagSg (lv + 1) else o.NULL_INT
    let FaMagSg := if o.MHD then w.amr.MagSg lv else o.NULL_INT
    { amr := K.Flu_FixUp_Restrict lv (w.amr.FluSg (lv + 1)) (w.amr.FluSg lv) o.NULL_INT o.NULL_INT
        SonMagSg FaMagSg o._TOTAL o._MAG w.amr
      trace := w.trace ++ [Call.Flu_FixUp_Restrict lv (w.amr.FluSg (lv + 1)) (w.amr.FluSg lv)
        o.NULL_INT o.NULL_INT SonMagSg FaMagSg o._TOTAL o._MAG] }
  else w

/-- Block 2 of `Flu_FixUp`: the electric-field correction, compiled only with MHD. -/
def fixUpElectric {D : Type} (o : FixUpOpt) (K : Correctors D) (lv : Int) (w : World D) : World D :=
  if o.MHD then
    if o.OPT__FIXUP_ELECTRIC then
      { amr := K.MHD_FixUp_Electric lv w.amr, trace := w.trace ++ [Call.MHD_FixUp_Electric lv] }
    else w
  else w

/-- Block 3 of `Flu_FixUp`: the flux correction. -/
def fixUpFlux {D : Type} (o : FixUpOpt) (K : Correctors D) (lv : Int) (w : World D) : World D :=
  if o.OPT__FIXUP_FLUX then
    { amr := K.Flu_FixUp_Flux lv w.amr, trace := w.trace ++ [Call.Flu_FixUp_Flux lv] }
  else w

/-- `Flu_FixUp( lv )`: the three blocks in the order of the source. -/
def Flu_FixUp {D : Type} (o : FixUpOpt) (K : Correctors D) (lv : Int) (w : World D) : World D :=
  fixUpFlux o K lv (fixUpElectric o K lv (fixUpRestrict o K lv w))

/-- The calls `Flu_FixUp( lv )` makes, from a state with an empty record. -/
def callsOf {D : Type} (o : FixUpOpt) (K : Correctors D) (lv : Int) (s : AMR D) : List Call :=
  (Flu_FixUp o K lv { amr := s, trace := [] }).trace

/-! ## Worked inputs -/

/-- External routines for the worked inputs: a state is unphysical when its density or its
total energy is not positive; the energy routines hand back the values they were given. -/
def exampleExt : Ext where
  Hydro_CheckUnphysical := fun u => decide (u DENS ≤ 0 ∨ u ENGY ≤ 0)
  Hydro_CheckMinEintInEngy := fun _ _ _ _ Engy _ _ => Engy
  MHD_GetCellCenteredBEnergy := fun _ _ _ _ _ _ _ _ _ => 0
  Hydro_DualEnergyFix := fun _ _ _ _ Engy Enpy status _ _ _ _ _ _ => (Engy, Enpy, status)

/-- Plain hydrodynamic build: a patch group of 2x2x2 cells with one ghost zone on each side,
fluxes on 3x3x3 faces, no passive scalar. -/
def plainConfig : Config where
  MHD := false
  BAROTROPIC_EOS := false
  DUAL_ENERGY := false
  PS2 := 2
  FLU_GHOST_SIZE := 1
  FLU_NXT := 4
  N_FL_FLUX := 3
  N_FC_FLUX := 3
  NCOMP_PASSIVE := 0
  ENPY := 5
  TINY_NUMBER := 1 / 1000000
  NULL_REAL := 0

/-- Arguments for the worked inputs: every field is 1 in every input cell except the input
cell of offset `badIn`, where it is -1; all fluxes vanish; `dt = dh = 1`. -/
def exampleArgs (badIn : Nat) (Iteration MinMod_Max_Iter : Int) : Args where
  g_Input := fun _ idx => if idx = badIn then -1 else 1
  g_FC_B := fun _ _ => 0
  g_Flux := fun _ _ _ => 0
  dt := 1
  dh := 1
  MinDens := 0
  MinEint := 0
  DualEnergySwitch := 0
  NormPassive := false
  NNorm := 0
  NormIdx := fun n => n
  EoS := { AuxArrayDevPtr_Flt := fun _ => 0 }
  Iteration := Iteration
  MinMod_Max_Iter := MinMod_Max_Iter

/-- Memory for the worked inputs: every output slot holds 7, every status 0. -/
def exampleMem (flag : Option Int) : Mem where
  g_Output := fun _ _ => 7
  g_DE_Status := fun _ => 0
  FullStepFailure := flag

/-- Options for the worked input of the fix-up driver: an MHD build with every correction off. -/
def exampleOpt : FixUpOpt where
  MHD := true
  OPT__FIXUP_RESTRICT := false
  OPT__FIXUP_ELECTRIC := false
  OPT__FIXUP_FLUX := false
  NULL_INT := 2147483647
  _TOTAL := 31
  _MAG := 7

/-- Options for the worked input of the fix-up driver: an MHD build with every correction on. -/
def allOnOpt : FixUpOpt where
  MHD := true
  OPT__FIXUP_RESTRICT := true
  OPT__FIXUP_ELECTRIC := true
  OPT__FIXUP_FLUX := true
  NULL_INT := 2147483647
  _TOTAL := 31
  _MAG := 7

/-- Correctors for the worked input of the fix-up driver, each changing the stored data. -/
def exampleCorrectors : Correctors Nat where
  Flu_FixUp_Restrict := fun _ _ _ _ _ _ _ _ _ s => { s with data := s.data + 1 }
  MHD_FixUp_Electric := fun _ s => { s with data := s.data + 10 }
  Flu_FixUp_Flux := fun _ s => { s with data := s.data + 100 }

/-- Global state for the worked input of the fix-up driver. -/
def exampleWorld : World Nat where
  amr := { FluSg := fun _ => 0, MagSg := fun _ => 1, data := 5 }
  trace := []

/-- The memory `m` with `*FullStepFailure` holding `f`. -/
def Mem.setFlag (m : Mem) (f : Int) : Mem := { m with FullStepFailure := some f }

/-- Offset of face or cell `(i, j, k)` in a cubic array of width `N`, `i` running fastest. -/
def offset3 (N i j k : Nat) : Nat := i + N * j + N ^ 2 * k

/-- The one-layer shift of the face indices in the MHD build. -/
def mhdShift (c : Config) : Nat := if c.MHD then 1 else 0

/-- Net flux of field `v` through the outer boundary faces of the output block: over the three
axes, the sum over the high-side boundary faces minus the sum over the low-side boundary
faces. -/
def netBoundaryFlux (c : Config) (a : Args) (v : Nat) : ℚ :=
  (∑ k in Finset.range c.PS2, ∑ j in Finset.range c.PS2,
      (a.g_Flux 0 v (offset3 c.N_FL_FLUX c.PS2 (j + mhdShift c) (k + mhdShift c))
        - a.g_Flux 0 v (offset3 c.N_FL_FLUX 0 (j + mhdShift c) (k + mhdShift c))))
  + (∑ k in Finset.range c.PS2, ∑ i in Finset.range c.PS2,
      (a.g_Flux 1 v (offset3 c.N_FL_FLUX (i + mhdShift c) c.PS2 (k + mhdShift c))
        - a.g_Flux 1 v (offset3 c.N_FL_FLUX (i + mhdShift c) 0 (k + mhdShift c))))
  + (∑ j in Finset.range c.PS2, ∑ i in Finset.range c.PS2,
      (a.g_Flux 2 v (offset3 c.N_FL_FLUX (i + mhdShift c) (j + mhdShift c) c.PS2)
        - a.g_Flux 2 v (offset3 c.N_FL_FLUX (i + mhdShift c) (j + mhdShift c) 0)))

/-- Sum of field `v` of the input block over the interior cells, those that are not ghost
cells. -/
def interiorInputSum (c : Config) (a : Args) (v : Nat) : ℚ :=
  ∑ k in Finset.range c.PS2, ∑ j in Finset.range c.PS2, ∑ i in Finset.range c.PS2,
    a.g_Input v (offset3 c.FLU_NXT (i + c.FLU_GHOST_SIZE) (j + c.FLU_GHOST_SIZE)
      (k + c.FLU_GHOST_SIZE))

/-- Sum of field `v` of an output block over its `CUBE(PS2)` cells. -/
def outputSum (c : Config) (g_Output : Nat → Nat → ℚ) (v : Nat) : ℚ :=
  ∑ idx in Finset.range (CUBE c.PS2), g_Output v idx

/-- The loop reaches cell `j`, so that the cell is written: `j` is in the block and either the
pointer is `NULL`, or the iteration budget is exhausted, or `j` is the first cell, or the flag
was not set on entry and no cell before `j` is unphysical. -/
def Written (c : Config) (E : Ext) (a : Args) (m : Mem) (j : Nat) : Prop :=
  j < CUBE c.PS2 ∧
    (m.FullStepFailure = none ∨ a.MinMod_Max_Iter ≤ a.Iteration ∨ j = 0 ∨
      (m.FullStepFailure ≠ some 1 ∧ ∀ i, i < j → unphysical c E a m i = false))

/-- The cell state after step 2a, the floor of the passive scalars. -/
def flooredCell (c : Config) (E : Ext) (a : Args) (idx : Nat) : Cell :=
  floorPassive c (barotropicStep c E a idx (fluxUpdate c a idx))

/-- The sum of the listed passive scalars that the normaliser divides by. -/
def listedSum (c : Config) (E : Ext) (a : Args) (idx : Nat) : ℚ :=
  ∑ n in Finset.range a.NNorm, flooredCell c E a idx (NCOMP_FLUID + a.NormIdx n)

/-- The factor by which the normaliser rescales the listed passive scalars of a cell. -/
def normFactor (c : Config) (E : Ext) (a : Args) (idx : Nat) : ℚ :=
  flooredCell c E a idx DENS / listedSum c E a idx

/-- Build with two passive scalars and a patch group of a single cell without ghost zone. -/
def passiveConfig : Config where
  MHD := false
  BAROTROPIC_EOS := false
  DUAL_ENERGY := false
  PS2 := 1
  FLU_GHOST_SIZE := 0
  FLU_NXT := 1
  N_FL_FLUX := 2
  N_FC_FLUX := 2
  NCOMP_PASSIVE := 2
  ENPY := 6
  TINY_NUMBER := 1 / 1000000
  NULL_REAL := 0

/-- Arguments for the build with two passive scalars: every field of the input cell is 1
except the second passive scalar, which is -5; all fluxes vanish; `dt = dh = 1`; both
scalars are listed for normalisation. -/
def passiveArgs : Args where
  g_Input := fun v _ => if v = 6 then -5 else 1
  g_FC_B := fun _ _ => 0
  g_Flux := fun _ _ _ => 0
  dt := 1
  dh := 1
  MinDens := 0
  MinEint := 0
  DualEnergySwitch := 0
  NormPassive := true
  NNorm := 2
  NormIdx := fun n => n
  EoS := { AuxArrayDevPtr_Flt := fun _ => 0 }
  Iteration := 0
  MinMod_Max_Iter := 1

/-- The second face read along axis `d` for cell `idx_out`: `idx_flux - didx_flux[d]` in the
MHD build, `idx_flux + didx_flux[d]` otherwise. -/
def idx_flux_nb (c : Config) (idx_out d : Nat) : Nat :=
  if c.MHD then idx_flux c idx_out - didx_flux c d else idx_flux c idx_out + didx_flux c d

/-- The flux field `F` with `F_d(x) = G_d(x + (1,1,1) - e_d)`, on flat face offsets of stride
`N_FL_FLUX`. -/
def shiftedFlux (c : Config) (G : Nat → Nat → Nat → ℚ) : Nat → Nat → Nat → ℚ :=
  fun d v x => G d v (x + (1 + c.N_FL_FLUX + SQR c.N_FL_FLUX) - didx_flux c d)

/-- Two argument sets agree on everything cell `idx` reads: the scalar parameters, the input
cell of `idx`, the two faces of `idx` along each axis, and the magnetic energy of the cell
where the build uses it. -/
def AgreeAt (c : Config) (E : Ext) (a a1 : Args) (idx : Nat) : Prop :=
  a.dt = a1.dt ∧ a.dh = a1.dh ∧ a.MinEint = a1.MinEint ∧
  a.DualEnergySwitch = a1.DualEnergySwitch ∧ a.NormPassive = a1.NormPassive ∧
  a.NNorm = a1.NNorm ∧ a.NormIdx = a1.NormIdx ∧ a.EoS = a1.EoS ∧
  (∀ v, v < c.NCOMP_TOTAL → a.g_Input v (idx_in c idx) = a1.g_Input v (idx_in c idx)) ∧
  (∀ d v, d < 3 → v < c.NCOMP_TOTAL →
    a.g_Flux d v (idx_flux c idx) = a1.g_Flux d v (idx_flux c idx) ∧
    a.g_Flux d v (idx_flux_nb c idx d) = a1.g_Flux d v (idx_flux_nb c idx d)) ∧
  (c.MHD = true → (c.BAROTROPIC_EOS = true ∨ c.DUAL_ENERGY = true) →
    Emag c E a idx = Emag c E a1 idx)

/-- The state transformer of a recorded corrector call. -/
def applyCall {D : Type} (K : Correctors D) : Call → AMR D → AMR D
  | Call.Flu_FixUp_Restrict FaLv SonFluSg FaFluSg SonPotSg FaPotSg SonMagSg FaMagSg TVarCC TVarFC =>
    K.Flu_FixUp_Restrict FaLv SonFluSg FaFluSg SonPotSg FaPotSg SonMagSg FaMagSg TVarCC TVarFC
  | Call.MHD_FixUp_Electric lv => K.MHD_FixUp_Electric lv
  | Call.Flu_FixUp_Flux lv => K.Flu_FixUp_Flux lv

/-- MHD build: a patch group of 2x2x2 cells with one ghost zone on each side, fluxes on
4x4x4 faces, no passive scalar. -/
def mhdConfig : Config where
  MHD := true
  BAROTROPIC_EOS := false
  DUAL_ENERGY := false
  PS2 := 2
  FLU_GHOST_SIZE := 1
  FLU_NXT := 4
  N_FL_FLUX := 4
  N_FC_FLUX := 4
  NCOMP_PASSIVE := 0
  ENPY := 5
  TINY_NUMBER := 1 / 1000000
  NULL_REAL := 0

/-- The arguments `a` with `MinDens` replaced. -/
def Args.withMinDens (a : Args) (x : ℚ) : Args := { a with MinDens := x }

/-- The arguments `a` with `MinEint` replaced. -/
def Args.withMinEint (a : Args) (x : ℚ) : Args := { a with MinEint := x }

/-- The arguments `a` with `Iteration` and `MinMod_Max_Iter` replaced. -/
def Args.withIteration (a : Args) (it mx : Int) : Args :=
  { a with Iteration := it, MinMod_Max_Iter := mx }

/-- The external routines `E` with another unphysical-state detector. -/
def Ext.withDetector (E : Ext) (chk : Cell → Bool) : Ext :=
  { E with Hydro_CheckUnphysical := chk }

/-- The external routines `E` with another dual-energy corrector. -/
def Ext.withDualEnergyFix (E : Ext)
    (fix : ℚ → ℚ → ℚ → ℚ → ℚ → ℚ → Int → ℚ → ℚ → Bool → ℚ → ℚ → ℚ → ℚ × ℚ × Int) : Ext :=
  { E with Hydro_DualEnergyFix := fix }

/-- The build `c` compiled without MHD. -/
def Config.withoutMHD (c : Config) : Config := { c with MHD := false }

/-- The arguments `a` with another flux field. -/
def Args.withFlux (a : Args) (F : Nat → Nat → Nat → ℚ) : Args := { a with g_Flux := F }

/-- Arguments whose flux at every face is the flat offset of the face; the input is 1
everywhere and `dt = dh = 1`. -/
def rampArgs : Args where
  g_Input := fun _ _ => 1
  g_FC_B := fun _ _ => 0
  g_Flux := fun _ _ x => (x : ℚ)
  dt := 1
  dh := 1
  MinDens := 0
  MinEint := 0
  DualEnergySwitch := 0
  NormPassive := false
  NNorm := 0
  NormIdx := fun n => n
  EoS := { AuxArrayDevPtr_Flt := fun _ => 0 }
  Iteration := 0
  MinMod_Max_Iter := 1

/-- The corrector a call belongs to: 0 restriction, 1 electric field, 2 flux. -/
def Call.kind : Call → Nat
  | Call.Flu_FixUp_Restrict _ _ _ _ _ _ _ _ _ => 0
  | Call.MHD_FixUp_Electric _ => 1
  | Call.Flu_FixUp_Flux _ => 2

/-! ## The loop body -/

section Kernel

variable (c : Config) (E : Ext) (a : Args)

theorem finalCell_congr {m m1 : Mem} {j : Nat} (h : m1.g_DE_Status j = m.g_DE_Status j) :
    finalCell c E a m1 j = finalCell c E a m j := by
  unfold finalCell; rw [h]

theorem finalStatus_congr {m m1 : Mem} {j : Nat} (h : m1.g_DE_Status j = m.g_DE_Status j) :
    finalStatus c E a m1 j = finalStatus c E a m j := by
  unfold finalStatus; rw [h]

theorem unphysical_congr {m m1 : Mem} {j : Nat} (h : m1.g_DE_Status j = m.g_DE_Status j) :
    unphysical c E a m1 j = unphysical c E a m j := by
  unfold unphysical; rw [finalCell_congr c E a h]

theorem loopBody_output (idx : Nat) (m : Mem) (v j : Nat) :
    (loopBody c E a idx m).1.g_Output v j =
      if j = idx ∧ v < c.NCOMP_TOTAL then finalCell c E a m idx v else m.g_Output v j := by
  cases hf : m.FullStepFailure <;> simp [loopBody, hf, finalCell]

theorem loopBody_status (idx : Nat) (m : Mem) (j : Nat) :
    (loopBody c E a idx m).1.g_DE_Status j =
      if j = idx then finalStatus c E a m idx else m.g_DE_Status j := by
  cases hf : m.FullStepFailure <;> simp [loopBody, hf, finalStatus]

theorem loopBody_status_ne (idx : Nat) (m : Mem) {j : Nat} (h : j ≠ idx) :
    (loopBody c E a idx m).1.g_DE_Status j = m.g_DE_Status j := by
  rw [loopBody_status, if_neg h]

theorem loopBody_none (idx : Nat) (m : Mem) (h : m.FullStepFailure = none) :
    (loopBody c E a idx m).1.FullStepFailure = none ∧ (loopBody c E a idx m).2 = false := by
  simp [loopBody, h]

theorem loopBody_some (idx : Nat) (m : Mem) (f : Int) (h : m.FullStepFailure = some f) :
    (loopBody c E a idx m).1.FullStepFailure
        = some (if unphysical c E a m idx then 1 else f) ∧
      (loopBody c E a idx m).2
        = decide ((if unphysical c E a m idx then (1 : Int) else f) = 1
            ∧ a.Iteration < a.MinMod_Max_Iter) := by
  simp [loopBody, h, unphysical, finalCell]

theorem cellLoop_succ (n idx : Nat) (m : Mem) :
    cellLoop c E a (n + 1) idx m =
      if (loopBody c E a idx m).2 then (loopBody c E a idx m).1
      else cellLoop c E a n (idx + 1) (loopBody c E a idx m).1 := rfl

/-! ## The loop: what is left untouched -/

theorem cellLoop_output_frame (n : Nat) : ∀ (idx : Nat) (m : Mem) (v j : Nat),
    (j < idx ∨ idx + n ≤ j ∨ c.NCOMP_TOTAL ≤ v) →
      (cellLoop c E a n idx m).g_Output v j = m.g_Output v j := by
  induction n with
  | zero => intro idx m v j _; rfl
  | succ n ih =>
    intro idx m v j h
    have hb : (loopBody c E a idx m).1.g_Output v j = m.g_Output v j := by
      rw [loopBody_output]
      apply if_neg
      rintro ⟨h1, h2⟩
      omega
    rw [cellLoop_succ]
    split
    · exact hb
    · rw [ih (idx + 1) _ v j (by omega), hb]

theorem cellLoop_status_frame (n : Nat) : ∀ (idx : Nat) (m : Mem) (j : Nat),
    (j < idx ∨ idx + n ≤ j) →
      (cellLoop c E a n idx m).g_DE_Status j = m.g_DE_Status j := by
  induction n with
  | zero => intro idx m j _; rfl
  | succ n ih =>
    intro idx m j h
    have hb : (loopBody c E a idx m).1.g_DE_Status j = m.g_DE_Status j :=
      loopBody_status_ne c E a idx m (by omega)
    rw [cellLoop_succ]
    split
    · exact hb
    · rw [ih (idx + 1) _ j (by omega), hb]

/-! ## The loop: the failure flag -/

theorem cellLoop_flag_none (n : Nat) : ∀ (idx : Nat) (m : Mem),
    m.FullStepFailure = none → (cellLoop c E a n idx m).FullStepFailure = none := by
  induction n with
  | zero => intro idx m h; exact h
  | succ n ih =>
    intro idx m h
    obtain ⟨h1, h2⟩ := loopBody_none c E a idx m h
    rw [cellLoop_succ, h2]
    simpa using ih (idx + 1) _ h1

theorem cellLoop_flag_good (n : Nat) : ∀ (idx : Nat) (m : Mem) (f : Int),
    m.FullStepFailure = some f →
    (∀ j, idx ≤ j → j < idx + n → unphysical c E a m j = false) →
      (cellLoop c E a n idx m).FullStepFailure = some f := by
  induction n with
  | zero => intro idx m f h _; exact h
  | succ n ih =>
    intro idx m f h hg
    obtain ⟨h1, -⟩ := loopBody_some c E a idx m f h
    have h0 : unphysical c E a m idx = false := hg idx (le_refl _) (by omega)
    simp only [h0, Bool.false_eq_true, if_false] at h1
    rw [cellLoop_succ]
    split
    · exact h1
    · apply ih (idx + 1) _ f h1
      intro j hj1 hj2
      rw [unphysical_congr c E a (loopBody_status_ne c E a idx m (by omega))]
      exact hg j (by omega) (by omega)

theorem cellLoop_flag_one (n : Nat) : ∀ (idx : Nat) (m : Mem),
    m.FullStepFailure = some 1 → (cellLoop c E a n idx m).FullStepFailure = some 1 := by
  induction n with
  | zero => intro idx m h; exact h
  | succ n ih =>
    intro idx m h
    obtain ⟨h1, -⟩ := loopBody_some c E a idx m 1 h
    simp only [ite_self] at h1
    rw [cellLoop_succ]
    split
    · exact h1
    · exact ih (idx + 1) _ h1

theorem cellLoop_flag_bad (n : Nat) : ∀ (idx : Nat) (m : Mem) (f : Int),
    m.FullStepFailure = some f →
    (∃ j, idx ≤ j ∧ j < idx + n ∧ unphysical c E a m j = true) →
      (cellLoop c E a n idx m).FullStepFailure = some 1 := by
  induction n with
  | zero => intro idx m f _ ⟨j, h1, h2, _⟩; omega
  | succ n ih =>
    intro idx m f h ⟨j, hj1, hj2, hj3⟩
    obtain ⟨h1, -⟩ := loopBody_some c E a idx m f h
    by_cases h0 : unphysical c E a m idx = true
    · simp only [h0, if_true] at h1
      rw [cellLoop_succ]
      split
      · exact h1
      · exact cellLoop_flag_one c E a n (idx + 1) _ h1
    · have hne : j ≠ idx := by
        rintro rfl
        exact h0 hj3
      rw [cellLoop_succ]
      split
      · rename_i hret
        rw [(loopBody_some c E a idx m f h).2] at hret
        simp only [decide_eq_true_eq] at hret
        rw [h1, hret.1]
      · apply ih (idx + 1) _ _ h1
        refine ⟨j, by omega, by omega, ?_⟩
        rw [unphysical_congr c E a (loopBody_status_ne c E a idx m hne)]
        exact hj3

/-! ## The loop: runs without an early return -/

/-- No pass of the loop over `[idx, idx+n)` executes `return`: the pointer is `NULL`, or the
iteration budget is exhausted, or the flag is not set and no cell of the range is unphysical. -/
theorem noStop_body (n idx : Nat) (m : Mem)
    (h : m.FullStepFailure = none ∨ a.MinMod_Max_Iter ≤ a.Iteration ∨
      (m.FullStepFailure ≠ some 1 ∧
        ∀ j, idx ≤ j → j < idx + (n + 1) → unphysical c E a m j = false)) :
    (loopBody c E a idx m).2 = false ∧
      ((loopBody c E a idx m).1.FullStepFailure = none ∨ a.MinMod_Max_Iter ≤ a.Iteration ∨
        ((loopBody c E a idx m).1.FullStepFailure ≠ some 1 ∧
          ∀ j, idx + 1 ≤ j → j < idx + 1 + n →
            unphysical c E a (loopBody c E a idx m).1 j = false)) := by
  cases hf : m.FullStepFailure with
  | none =>
    obtain ⟨h1, h2⟩ := loopBody_none c E a idx m hf
    exact ⟨h2, Or.inl h1⟩
  | some f =>
    obtain ⟨h1, h2⟩ := loopBody_some c E a idx m f hf
    rcases h with h | h | ⟨hne, hg⟩
    · rw [hf] at h; cases h
    · refine ⟨?_, Or.inr (Or.inl h)⟩
      rw [h2, decide_eq_false_iff_not]
      rintro ⟨-, hlt⟩
      omega
    · have h0 : unphysical c E a m idx = false := hg idx (le_refl _) (by omega)
      simp only [h0, Bool.false_eq_true, if_false] at h1 h2
      have hf1 : f ≠ 1 := by
        intro hf1
        apply hne
        rw [hf, hf1]
      refine ⟨?_, Or.inr (Or.inr ⟨?_, ?_⟩)⟩
      · rw [h2, decide_eq_false_iff_not]
        rintro ⟨h3, -⟩
        exact hf1 h3
      · rw [h1]
        intro h3
        exact hf1 (Option.some.inj h3)
      · intro j hj1 hj2
        rw [unphysical_congr c E a (loopBody_status_ne c E a idx m (by omega))]
        exact hg j (by omega) (by omega)

theorem cellLoop_complete (n : Nat) : ∀ (idx : Nat) (m : Mem),
    (m.FullStepFailure = none ∨ a.MinMod_Max_Iter ≤ a.Iteration ∨
      (m.FullStepFailure ≠ some 1 ∧
        ∀ j, idx ≤ j → j < idx + n → unphysical c E a m j = false)) →
    ∀ j, idx ≤ j → j < idx + n →
      (∀ v, v < c.NCOMP_TOTAL → (cellLoop c E a n idx m).g_Output v j = finalCell c E a m j v) ∧
      (cellLoop c E a n idx m).g_DE_Status j = finalStatus c E a m j := by
  induction n with
  | zero => intro idx m _ j h1 h2; omega
  | succ n ih =>
    intro idx m h j hj1 hj2
    obtain ⟨hret, hnext⟩ := noStop_body c E a n idx m h
    rw [cellLoop_succ, hret]
    simp only [Bool.false_eq_true, if_false]
    by_cases hj : j = idx
    · subst hj
      constructor
      · intro v hv
        rw [cellLoop_output_frame c E a n (j + 1) _ v j (by omega), loopBody_output]
        simp [hv]
      · rw [cellLoop_status_frame c E a n (j + 1) _ j (by omega), loopBody_status]
        simp
    · obtain ⟨ih1, ih2⟩ := ih (idx + 1) _ hnext j (by omega) (by omega)
      have hs := loopBody_status_ne c E a idx m hj
      constructor
      · intro v hv
        rw [ih1 v hv, finalCell_congr c E a hs]
      · rw [ih2, finalStatus_congr c E a hs]

/-! ## The loop: early return at the first unphysical cell -/

theorem cellLoop_abort (n : Nat) : ∀ (idx : Nat) (m : Mem) (f : Int) (k : Nat),
    m.FullStepFailure = some f → f ≠ 1 → a.Iteration < a.MinMod_Max_Iter →
    idx ≤ k → k < idx + n → unphysical c E a m k = true →
    (∀ j, idx ≤ j → j < k → unphysical c E a m j = false) →
    (∀ j, idx ≤ j → j ≤ k →
      (∀ v, v < c.NCOMP_TOTAL → (cellLoop c E a n idx m).g_Output v j = finalCell c E a m j v) ∧
      (cellLoop c E a n idx m).g_DE_Status j = finalStatus c E a m j) ∧
    (∀ j, k < j →
      (∀ v, (cellLoop c E a n idx m).g_Output v j = m.g_Output v j) ∧
      (cellLoop c E a n idx m).g_DE_Status j = m.g_DE_Status j) := by
  induction n with
  | zero => intro idx m f k _ _ _ h1 h2; omega
  | succ n ih =>
    intro idx m f k hf hf1 hit hk1 hk2 hbad hgood
    obtain ⟨h1, h2⟩ := loopBody_some c E a idx m f hf
    rw [cellLoop_succ]
    by_cases hk : k = idx
    · subst hk
      simp only [hbad, if_true, true_and, decide_eq_true_eq.mpr hit] at h2
      rw [h2]
      simp only [if_true]
      constructor
      · intro j hj1 hj2
        have hj : j = k := by omega
        subst hj
        constructor
        · intro v hv
          rw [loopBody_output]; simp [hv]
        · rw [loopBody_status]; simp
      · intro j hj
        constructor
        · intro v
          rw [loopBody_output, if_neg]
          rintro ⟨h3, -⟩
          omega
        · exact loopBody_status_ne c E a k m (by omega)
    · have h0 : unphysical c E a m idx = false := hgood idx (le_refl _) (by omega)
      simp only [h0, Bool.false_eq_true, if_false] at h1 h2
      have hret : (loopBody c E a idx m).2 = false := by
        rw [h2, decide_eq_false_iff_not]
        rintro ⟨h3, -⟩
        exact hf1 h3
      rw [hret]
      simp only [Bool.false_eq_true, if_false]
      have hst : ∀ j, j ≠ idx →
          (loopBody c E a idx m).1.g_DE_Status j = m.g_DE_Status j :=
        fun j hj => loopBody_status_ne c E a idx m hj
      obtain ⟨ihA, ihB⟩ := ih (idx + 1) (loopBody c E a idx m).1 f k h1 hf1 hit (by omega)
        (by omega) (by rw [unphysical_congr c E a (hst k hk)]; exact hbad)
        (by
          intro j hj1 hj2
          rw [unphysical_congr c E a (hst j (by omega))]
          exact hgood j (by omega) hj2)
      constructor
      · intro j hj1 hj2
        by_cases hj : j = idx
        · subst hj
          constructor
          · intro v hv
            rw [cellLoop_output_frame c E a n (j + 1) _ v j (by omega), loopBody_output]
            simp [hv]
          · rw [cellLoop_status_frame c E a n (j + 1) _ j (by omega), loopBody_status]
            simp
        · obtain ⟨i1, i2⟩ := ihA j (by omega) hj2
          constructor
          · intro v hv
            rw [i1 v hv, finalCell_congr c E a (hst j hj)]
          · rw [i2, finalStatus_congr c E a (hst j hj)]
      · intro j hj
        obtain ⟨i1, i2⟩ := ihB j hj
        constructor
        · intro v
          rw [i1 v, loopBody_output, if_neg]
          rintro ⟨h3, -⟩
          omega
        · rw [i2, hst j (by omega)]

/-- With the flag set on entry and iterations left, the first pass returns. -/
theorem cellLoop_entry_set (n idx : Nat) (m : Mem)
    (hf : m.FullStepFailure = some 1) (hit : a.Iteration < a.MinMod_Max_Iter) :
    cellLoop c E a (n + 1) idx m = (loopBody c E a idx m).1 := by
  obtain ⟨-, h2⟩ := loopBody_some c E a idx m 1 hf
  rw [cellLoop_succ, h2]
  simp [hit]

/-! ## Cell index arithmetic -/

theorem offset3_lt (P i j k : Nat) (hi : i < P) (hj : j < P) (hk : k < P) :
    offset3 P i j k < CUBE P := by
  unfold offset3 CUBE
  have h1 : i + P * j + P ^ 2 * k ≤ (P - 1) + P * (P - 1) + P ^ 2 * (P - 1) := by
    have a1 : i ≤ P - 1 := by omega
    have a2 : j ≤ P - 1 := by omega
    have a3 : k ≤ P - 1 := by omega
    gcongr
  obtain ⟨q, rfl⟩ : ∃ q, P = q + 1 := ⟨P - 1, by omega⟩
  simp only [Nat.add_sub_cancel] at h1
  nlinarith

theorem i_out_offset3 (i j k : Nat) (hi : i < c.PS2) :
    i_out c (offset3 c.PS2 i j k) = i := by
  unfold i_out offset3
  have h : i + c.PS2 * j + c.PS2 ^ 2 * k = i + c.PS2 * (j + c.PS2 * k) := by ring
  rw [h, Nat.add_mul_mod_self_left, Nat.mod_eq_of_lt hi]

theorem j_out_offset3 (i j k : Nat) (hi : i < c.PS2) (hj : j < c.PS2) :
    j_out c (offset3 c.PS2 i j k) = j := by
  unfold j_out offset3 SQR
  have hP : 0 < c.PS2 := by omega
  have h2 : i + c.PS2 * j < c.PS2 * c.PS2 := by nlinarith
  have h : i + c.PS2 * j + c.PS2 ^ 2 * k = (i + c.PS2 * j) + (c.PS2 * c.PS2) * k := by ring
  rw [h, Nat.add_mul_mod_self_left, Nat.mod_eq_of_lt h2, Nat.add_mul_div_left _ _ hP,
    Nat.div_eq_of_lt hi, Nat.zero_add]

theorem k_out_offset3 (i j k : Nat) (hi : i < c.PS2) (hj : j < c.PS2) :
    k_out c (offset3 c.PS2 i j k) = k := by
  unfold k_out offset3 SQR
  have hP : 0 < c.PS2 := by omega
  have h2 : i + c.PS2 * j < c.PS2 * c.PS2 := by nlinarith
  have h : i + c.PS2 * j + c.PS2 ^ 2 * k = (i + c.PS2 * j) + (c.PS2 * c.PS2) * k := by ring
  rw [h, Nat.add_mul_div_left _ _ (Nat.mul_pos hP hP), Nat.div_eq_of_lt h2, Nat.zero_add]

theorem IDX321_eq_offset3 (i j k N : Nat) : IDX321 i j k N N = offset3 N i j k := by
  unfold IDX321 offset3; ring

/-- In the build without barotropic equation of state, dual energy and passive scalars the
finalized state is the flux update. -/
theorem finalCell_plain (m : Mem) (idx : Nat) (hb : c.BAROTROPIC_EOS = false)
    (hd : c.DUAL_ENERGY = false) (hp : c.NCOMP_PASSIVE = 0) :
    finalCell c E a m idx = fluxUpdate c a idx := by
  simp [finalCell, cellUpdate, dualEnergyStep, passiveStep, barotropicStep, hb, hd, hp]

/-! ## Sums over the block -/

theorem sum_range_mul_eq (f : Nat → ℚ) (n m : Nat) :
    ∑ x in Finset.range (n * m), f x
      = ∑ b in Finset.range m, ∑ i in Finset.range n, f (i + n * b) := by
  induction m with
  | zero => simp
  | succ m ih =>
    rw [Nat.mul_succ, Finset.sum_range_add, ih, Finset.sum_range_succ]
    congr 1
    apply Finset.sum_congr rfl
    intro i _
    rw [Nat.add_comm]

theorem sum_range_cube_eq (f : Nat → ℚ) (P : Nat) :
    ∑ x in Finset.range (CUBE P), f x
      = ∑ k in Finset.range P, ∑ j in Finset.range P, ∑ i in Finset.range P,
          f (offset3 P i j k) := by
  unfold CUBE
  rw [sum_range_mul_eq f (P * P) P]
  apply Finset.sum_congr rfl
  intro k _
  rw [sum_range_mul_eq (fun y => f (y + P * P * k)) P P]
  apply Finset.sum_congr rfl
  intro j _
  apply Finset.sum_congr rfl
  intro i _
  congr 1
  unfold offset3
  ring

theorem dFlux_offset3 (i j k v : Nat) (hi : i < c.PS2) (hj : j < c.PS2) :
    dFlux c a (offset3 c.PS2 i j k) 0 v
        = a.g_Flux 0 v (offset3 c.N_FL_FLUX (i + 1) (j + mhdShift c) (k + mhdShift c))
          - a.g_Flux 0 v (offset3 c.N_FL_FLUX i (j + mhdShift c) (k + mhdShift c)) ∧
    dFlux c a (offset3 c.PS2 i j k) 1 v
        = a.g_Flux 1 v (offset3 c.N_FL_FLUX (i + mhdShift c) (j + 1) (k + mhdShift c))
          - a.g_Flux 1 v (offset3 c.N_FL_FLUX (i + mhdShift c) j (k + mhdShift c)) ∧
    dFlux c a (offset3 c.PS2 i j k) 2 v
        = a.g_Flux 2 v (offset3 c.N_FL_FLUX (i + mhdShift c) (j + mhdShift c) (k + 1))
          - a.g_Flux 2 v (offset3 c.N_FL_FLUX (i + mhdShift c) (j + mhdShift c) k) := by
  have e1 := i_out_offset3 c i j k hi
  have e2 := j_out_offset3 c i j k hi hj
  have e3 := k_out_offset3 c i j k hi hj
  cases hM : c.MHD with
  | false =>
    have hx : offset3 c.N_FL_FLUX i j k + 1 = offset3 c.N_FL_FLUX (i + 1) j k := by
      unfold offset3; ring
    have hy : offset3 c.N_FL_FLUX i j k + c.N_FL_FLUX = offset3 c.N_FL_FLUX i (j + 1) k := by
      unfold offset3; ring
    have hz : offset3 c.N_FL_FLUX i j k + SQR c.N_FL_FLUX
        = offset3 c.N_FL_FLUX i j (k + 1) := by
      unfold offset3 SQR; ring
    simp only [dFlux, hM, idx_flux, e1, e2, e3, IDX321_eq_offset3, didx_flux, hx, hy, hz,
      mhdShift, Bool.false_eq_true, if_false, Nat.add_zero, and_self]
  | true =>
    have hx : offset3 c.N_FL_FLUX (i + 1) (j + 1) (k + 1) - 1
        = offset3 c.N_FL_FLUX i (j + 1) (k + 1) := by
      apply Nat.sub_eq_of_eq_add
      unfold offset3; ring
    have hy : offset3 c.N_FL_FLUX (i + 1) (j + 1) (k + 1) - c.N_FL_FLUX
        = offset3 c.N_FL_FLUX (i + 1) j (k + 1) := by
      apply Nat.sub_eq_of_eq_add
      unfold offset3; ring
    have hz : offset3 c.N_FL_FLUX (i + 1) (j + 1) (k + 1) - SQR c.N_FL_FLUX
        = offset3 c.N_FL_FLUX (i + 1) (j + 1) k := by
      apply Nat.sub_eq_of_eq_add
      unfold offset3 SQR; ring
    simp only [dFlux, hM, idx_flux, e1, e2, e3, IDX321_eq_offset3, didx_flux, hx, hy, hz,
      mhdShift, if_true, and_self]

theorem idx_in_offset3 (i j k : Nat) (hi : i < c.PS2) (hj : j < c.PS2) :
    idx_in c (offset3 c.PS2 i j k)
      = offset3 c.FLU_NXT (i + c.FLU_GHOST_SIZE) (j + c.FLU_GHOST_SIZE)
          (k + c.FLU_GHOST_SIZE) := by
  simp only [idx_in, i_out_offset3 c i j k hi, j_out_offset3 c i j k hi hj,
    k_out_offset3 c i j k hi hj, IDX321_eq_offset3]

/-- The flux differences of one field summed over the block telescope to the net boundary
flux. -/
theorem sum_dFlux_eq_net (v : Nat) :
    ∑ k in Finset.range c.PS2, ∑ j in Finset.range c.PS2, ∑ i in Finset.range c.PS2,
        (dFlux c a (offset3 c.PS2 i j k) 0 v + dFlux c a (offset3 c.PS2 i j k) 1 v
          + dFlux c a (offset3 c.PS2 i j k) 2 v)
      = netBoundaryFlux c a v := by
  have hx : ∀ k j, ∑ i in Finset.range c.PS2,
        (a.g_Flux 0 v (offset3 c.N_FL_FLUX (i + 1) (j + mhdShift c) (k + mhdShift c))
          - a.g_Flux 0 v (offset3 c.N_FL_FLUX i (j + mhdShift c) (k + mhdShift c)))
      = a.g_Flux 0 v (offset3 c.N_FL_FLUX c.PS2 (j + mhdShift c) (k + mhdShift c))
          - a.g_Flux 0 v (offset3 c.N_FL_FLUX 0 (j + mhdShift c) (k + mhdShift c)) :=
    fun k j => Finset.sum_range_sub
      (fun i => a.g_Flux 0 v (offset3 c.N_FL_FLUX i (j + mhdShift c) (k + mhdShift c))) c.PS2
  have hy : ∀ k i, ∑ j in Finset.range c.PS2,
        (a.g_Flux 1 v (offset3 c.N_FL_FLUX (i + mhdShift c) (j + 1) (k + mhdShift c))
          - a.g_Flux 1 v (offset3 c.N_FL_FLUX (i + mhdShift c) j (k + mhdShift c)))
      = a.g_Flux 1 v (offset3 c.N_FL_FLUX (i + mhdShift c) c.PS2 (k + mhdShift c))
          - a.g_Flux 1 v (offset3 c.N_FL_FLUX (i + mhdShift c) 0 (k + mhdShift c)) :=
    fun k i => Finset.sum_range_sub
      (fun j => a.g_Flux 1 v (offset3 c.N_FL_FLUX (i + mhdShift c) j (k + mhdShift c))) c.PS2
  have hz : ∀ j i, ∑ k in Finset.range c.PS2,
        (a.g_Flux 2 v (offset3 c.N_FL_FLUX (i + mhdShift c) (j + mhdShift c) (k + 1))
          - a.g_Flux 2 v (offset3 c.N_FL_FLUX (i + mhdShift c) (j + mhdShift c) k))
      = a.g_Flux 2 v (offset3 c.N_FL_FLUX (i + mhdShift c) (j + mhdShift c) c.PS2)
          - a.g_Flux 2 v (offset3 c.N_FL_FLUX (i + mhdShift c) (j + mhdShift c) 0) :=
    fun j i => Finset.sum_range_sub
      (fun k => a.g_Flux 2 v (offset3 c.N_FL_FLUX (i + mhdShift c) (j + mhdShift c) k)) c.PS2
  have hrw : ∑ k in Finset.range c.PS2, ∑ j in Finset.range c.PS2, ∑ i in Finset.range c.PS2,
        (dFlux c a (offset3 c.PS2 i j k) 0 v + dFlux c a (offset3 c.PS2 i j k) 1 v
          + dFlux c a (offset3 c.PS2 i j k) 2 v)
      = ∑ k in Finset.range c.PS2, ∑ j in Finset.range c.PS2, ∑ i in Finset.range c.PS2,
        ((a.g_Flux 0 v (offset3 c.N_FL_FLUX (i + 1) (j + mhdShift c) (k + mhdShift c))
            - a.g_Flux 0 v (offset3 c.N_FL_FLUX i (j + mhdShift c) (k + mhdShift c)))
          + (a.g_Flux 1 v (offset3 c.N_FL_FLUX (i + mhdShift c) (j + 1) (k + mhdShift c))
            - a.g_Flux 1 v (offset3 c.N_FL_FLUX (i + mhdShift c) j (k + mhdShift c)))
          + (a.g_Flux 2 v (offset3 c.N_FL_FLUX (i + mhdShift c) (j + mhdShift c) (k + 1))
            - a.g_Flux 2 v (offset3 c.N_FL_FLUX (i + mhdShift c) (j + mhdShift c) k))) := by
    apply Finset.sum_congr rfl
    intro k _
    apply Finset.sum_congr rfl
    intro j hj
    apply Finset.sum_congr rfl
    intro i hi
    obtain ⟨d0, d1, d2⟩ := dFlux_offset3 c a i j k v (Finset.mem_range.mp hi)
      (Finset.mem_range.mp hj)
    rw [d0, d1, d2]
  rw [hrw]
  simp only [Finset.sum_add_distrib]
  unfold netBoundaryFlux
  congr 1
  · congr 1
    · apply Finset.sum_congr rfl
      intro k _
      apply Finset.sum_congr rfl
      intro j _
      exact hx k j
    · apply Finset.sum_congr rfl
      intro k _
      rw [Finset.sum_comm]
      apply Finset.sum_congr rfl
      intro i _
      exact hy k i
  · rw [Finset.sum_comm]
    apply Finset.sum_congr rfl
    intro j _
    rw [Finset.sum_comm]
    apply Finset.sum_congr rfl
    intro i _
    exact hz j i

/-! ## Which cells are written -/

theorem written_output (m : Mem) (j : Nat) (hw : Written c E a m j) :
    (∀ v, v < c.NCOMP_TOTAL →
      (Hydro_FullStepUpdate c E a m).g_Output v j = finalCell c E a m j v) ∧
    (Hydro_FullStepUpdate c E a m).g_DE_Status j = finalStatus c E a m j := by
  obtain ⟨hj, hcase⟩ := hw
  unfold Hydro_FullStepUpdate
  by_cases hit : a.MinMod_Max_Iter ≤ a.Iteration
  · exact cellLoop_complete c E a _ 0 m (Or.inr (Or.inl hit)) j (Nat.zero_le _) (by omega)
  cases hf : m.FullStepFailure with
  | none => exact cellLoop_complete c E a _ 0 m (Or.inl hf) j (Nat.zero_le _) (by omega)
  | some f =>
    have hlt : a.Iteration < a.MinMod_Max_Iter := by omega
    by_cases hf1 : f = 1
    · subst hf1
      have hj0 : j = 0 := by
        rcases hcase with h | h | h | ⟨h, -⟩
        · rw [hf] at h; cases h
        · exact absurd h hit
        · exact h
        · exact absurd hf h
      subst hj0
      obtain ⟨n, hn⟩ : ∃ n, CUBE c.PS2 = n + 1 := ⟨CUBE c.PS2 - 1, by omega⟩
      rw [hn, cellLoop_entry_set c E a n 0 m hf hlt]
      constructor
      · intro v hv
        rw [loopBody_output]; simp [hv]
      · rw [loopBody_status]; simp
    · have hpre : ∀ i, i < j → unphysical c E a m i = false := by
        rcases hcase with h | h | h | ⟨-, h⟩
        · rw [hf] at h; cases h
        · exact absurd h hit
        · subst h; intro i hi; omega
        · exact h
      by_cases hex : ∃ k, k < CUBE c.PS2 ∧ unphysical c E a m k = true
      · classical
        have hk := Nat.find_spec hex
        have hmin : ∀ i, i < Nat.find hex → unphysical c E a m i = false := by
          intro i hi
          have h := Nat.find_min hex hi
          by_contra hu
          exact h ⟨by omega, by simpa using hu⟩
        have hjk : j ≤ Nat.find hex := by
          by_contra hlt2
          have h1 := hpre (Nat.find hex) (by omega)
          rw [hk.2] at h1
          cases h1
        exact (cellLoop_abort c E a _ 0 m f (Nat.find hex) hf hf1 hlt (Nat.zero_le _)
          (by omega) hk.2 (fun i _ hi => hmin i hi)).1 j (Nat.zero_le _) hjk
      · refine cellLoop_complete c E a _ 0 m (Or.inr (Or.inr ⟨?_, ?_⟩)) j (Nat.zero_le _)
          (by omega)
        · rw [hf]
          intro h
          exact hf1 (Option.some.inj h)
        · intro i _ hi
          by_contra hu
          exact hex ⟨i, by omega, by simpa using hu⟩

/-- A cell that the loop does not reach keeps the values it held before the call. -/
theorem not_written_frame (m : Mem) (j : Nat) (hj : j < CUBE c.PS2)
    (hn : ¬ Written c E a m j) :
    (∀ v, (Hydro_FullStepUpdate c E a m).g_Output v j = m.g_Output v j) ∧
    (Hydro_FullStepUpdate c E a m).g_DE_Status j = m.g_DE_Status j := by
  unfold Written at hn
  simp only [hj, true_and, not_or, not_and] at hn
  obtain ⟨hp, hit, hj0, hbad⟩ := hn
  have hlt : a.Iteration < a.MinMod_Max_Iter := by omega
  obtain ⟨f, hf⟩ : ∃ f, m.FullStepFailure = some f := by
    cases h : m.FullStepFailure with
    | none => exact absurd h hp
    | some f => exact ⟨f, rfl⟩
  unfold Hydro_FullStepUpdate
  by_cases hf1 : f = 1
  · subst hf1
    obtain ⟨n, hn1⟩ : ∃ n, CUBE c.PS2 = n + 1 := ⟨CUBE c.PS2 - 1, by omega⟩
    rw [hn1, cellLoop_entry_set c E a n 0 m hf hlt]
    constructor
    · intro v
      rw [loopBody_output, if_neg]
      rintro ⟨h, -⟩
      exact hj0 h
    · exact loopBody_status_ne c E a 0 m hj0
  · have hne : m.FullStepFailure ≠ some 1 := by
      rw [hf]
      intro h
      exact hf1 (Option.some.inj h)
    have hex : ∃ k, k < j ∧ unphysical c E a m k = true := by
      by_contra hno
      apply hbad hne
      intro i hi
      by_contra hu
      exact hno ⟨i, hi, by simpa using hu⟩
    classical
    have hk := Nat.find_spec hex
    have hmin : ∀ i, i < Nat.find hex → unphysical c E a m i = false := by
      intro i hi
      have h := Nat.find_min hex hi
      by_contra hu
      exact h ⟨by omega, by simpa using hu⟩
    exact (cellLoop_abort c E a _ 0 m f (Nat.find hex) hf hf1 hlt (Nat.zero_le _)
      (by omega) hk.2 (fun i _ hi => hmin i hi)).2 j hk.1

/-! ## The normaliser -/

theorem foldl_add_eq_sum (g : Nat → ℚ) (N : Nat) :
    (List.range N).foldl (fun s n => s + g n) 0 = ∑ n in Finset.range N, g n := by
  induction N with
  | zero => simp
  | succ N ih => rw [List.range_succ, List.foldl_append, ih, Finset.sum_range_succ]; rfl

theorem foldl_scale_apply (Norm : ℚ) (P0 : Nat → ℚ) (NormIdx : Nat → Nat) (N p : Nat) :
    (List.range N).foldl (fun P n => Function.update P (NormIdx n) (P (NormIdx n) * Norm)) P0 p
      = P0 p * Norm ^ ((Finset.range N).filter (fun n => NormIdx n = p)).card := by
  induction N with
  | zero => simp
  | succ N ih =>
    rw [List.range_succ, List.foldl_append]
    simp only [List.foldl_cons, List.foldl_nil]
    rw [Finset.range_succ, Finset.filter_insert]
    by_cases h : NormIdx N = p
    · subst h
      rw [Function.update_same, ih, if_pos rfl, Finset.card_insert_of_not_mem (by simp), pow_succ,
        mul_assoc]
    · rw [Function.update_noteq (Ne.symm h), ih, if_neg h]

/-- Each passive scalar leaves the normaliser multiplied by the factor once for every
occurrence of its index in the list. -/
theorem Hydro_NormalizePassive_apply (GasDens : ℚ) (P0 : Nat → ℚ) (NNorm : Nat)
    (NormIdx : Nat → Nat) (p : Nat) :
    Hydro_NormalizePassive GasDens P0 NNorm NormIdx p
      = P0 p * (GasDens / ∑ n in Finset.range NNorm, P0 (NormIdx n))
          ^ ((Finset.range NNorm).filter (fun n => NormIdx n = p)).card := by
  unfold Hydro_NormalizePassive
  simp only [foldl_add_eq_sum, foldl_scale_apply]

theorem FMAX_ge_right (x y : ℚ) : y ≤ FMAX x y := by
  unfold FMAX
  split
  · exact le_of_lt (by assumption)
  · exact le_refl _

theorem flooredCell_fluid (idx v : Nat) (hv : v < NCOMP_FLUID) (hne : v ≠ ENGY) :
    flooredCell c E a idx v = fluxUpdate c a idx v := by
  unfold flooredCell floorPassive barotropicStep
  rw [if_neg (by omega)]
  split
  · rw [Function.update_noteq hne]
  · rfl

theorem flooredCell_passive (idx v : Nat) (h1 : NCOMP_FLUID ≤ v) (h2 : v < c.NCOMP_TOTAL) :
    flooredCell c E a idx v = FMAX (fluxUpdate c a idx v) c.TINY_NUMBER := by
  have hne : v ≠ ENGY := by unfold ENGY; unfold NCOMP_FLUID at h1; omega
  unfold flooredCell floorPassive barotropicStep
  rw [if_pos ⟨h1, h2⟩]
  split
  · rw [Function.update_noteq hne]
  · rfl

/-- The finalized value of a field that the dual-energy step does not write, in a build
with passive scalars. -/
theorem finalCell_passive_build (m : Mem) (idx v : Nat) (hP : 0 < c.NCOMP_PASSIVE)
    (hE : c.DUAL_ENERGY = true → v ≠ ENGY ∧ v ≠ c.ENPY) :
    finalCell c E a m idx v = normalizeStep a (flooredCell c E a idx) v := by
  unfold finalCell cellUpdate dualEnergyStep passiveStep
  rw [if_pos hP]
  cases hD : c.DUAL_ENERGY with
  | false => rfl
  | true =>
    obtain ⟨h1, h2⟩ := hE hD
    simp only [if_true]
    rw [Function.update_noteq h2, Function.update_noteq h1]
    rfl

theorem normalizeStep_off (u : Cell) (h : a.NormPassive = false) : normalizeStep a u = u := by
  unfold normalizeStep
  rw [h]
  rfl

theorem normalizeStep_fluid (u : Cell) (v : Nat) (hv : v < NCOMP_FLUID) :
    normalizeStep a u v = u v := by
  unfold normalizeStep
  split
  · exact if_neg (by omega)
  · rfl

theorem normalizeStep_passive (idx v : Nat) (h : a.NormPassive = true) (hv : NCOMP_FLUID ≤ v) :
    normalizeStep a (flooredCell c E a idx) v
      = flooredCell c E a idx v * normFactor c E a idx
          ^ ((Finset.range a.NNorm).filter (fun n => NCOMP_FLUID + a.NormIdx n = v)).card := by
  unfold normalizeStep
  rw [if_pos h]
  simp only [if_pos hv]
  rw [Hydro_NormalizePassive_apply]
  have e1 : NCOMP_FLUID + (v - NCOMP_FLUID) = v := by omega
  have e2 : (Finset.range a.NNorm).filter (fun n => a.NormIdx n = v - NCOMP_FLUID)
      = (Finset.range a.NNorm).filter (fun n => NCOMP_FLUID + a.NormIdx n = v) := by
    apply Finset.filter_congr
    intro n _
    constructor <;> intro h3 <;> omega
  rw [e1, e2]
  rfl

end Kernel

/-! ## Comparing two calls -/

theorem cellLoop_congr {c c1 : Config} {E E1 : Ext} {a a1 : Args}
    (h : ∀ idx m, loopBody c E a idx m = loopBody c1 E1 a1 idx m) :
    ∀ (n idx : Nat) (m : Mem), cellLoop c E a n idx m = cellLoop c1 E1 a1 n idx m := by
  intro n
  induction n with
  | zero => intro idx m; rfl
  | succ n ih =>
    intro idx m
    rw [cellLoop_succ, cellLoop_succ, h idx m]
    split
    · rfl
    · exact ih (idx + 1) _

theorem cellLoop_congr_none {c c1 : Config} {E E1 : Ext} {a a1 : Args}
    (h : ∀ idx m, m.FullStepFailure = none → loopBody c E a idx m = loopBody c1 E1 a1 idx m) :
    ∀ (n idx : Nat) (m : Mem), m.FullStepFailure = none →
      cellLoop c E a n idx m = cellLoop c1 E1 a1 n idx m := by
  intro n
  induction n with
  | zero => intro idx m _; rfl
  | succ n ih =>
    intro idx m hm
    obtain ⟨h1, h2⟩ := loopBody_none c1 E1 a1 idx m hm
    rw [cellLoop_succ, cellLoop_succ, h idx m hm, h2]
    simp only [Bool.false_eq_true, if_false]
    exact ih (idx + 1) _ h1

/-- With the pointer `NULL` the loop body is the store of the finalized cell and nothing
else. -/
theorem loopBody_of_none (c : Config) (E : Ext) (a : Args) (idx : Nat) (m : Mem)
    (hm : m.FullStepFailure = none) :
    loopBody c E a idx m =
      ({ g_Output := fun v j =>
            if j = idx ∧ v < c.NCOMP_TOTAL then (cellUpdate c E a (m.g_DE_Status idx) idx).1 v
            else m.g_Output v j
         g_DE_Status := fun j =>
            if j = idx then (cellUpdate c E a (m.g_DE_Status idx) idx).2 else m.g_DE_Status j
         FullStepFailure := m.FullStepFailure }, false) := by
  simp [loopBody, hm]

/-! ## Fields the corrections leave alone -/

theorem barotropicStep_ne (c : Config) (E : Ext) (a : Args) (idx : Nat) (u : Cell) (v : Nat)
    (hv : v ≠ ENGY) : barotropicStep c E a idx u v = u v := by
  unfold barotropicStep
  split
  · rw [Function.update_noteq hv]
  · rfl

theorem passiveStep_fluid (c : Config) (a : Args) (u : Cell) (v : Nat) (hv : v < NCOMP_FLUID) :
    passiveStep c a u v = u v := by
  unfold passiveStep
  split
  · rw [normalizeStep_fluid a _ v hv]
    unfold floorPassive
    rw [if_neg (by omega)]
  · rfl

theorem dualEnergyStep_ne (c : Config) (E : Ext) (a : Args) (idx : Nat) (status : Int)
    (u : Cell) (v : Nat) (h1 : v ≠ ENGY) (h2 : c.DUAL_ENERGY = true → v ≠ c.ENPY) :
    (dualEnergyStep c E a idx status u).1 v = u v := by
  unfold dualEnergyStep
  cases hD : c.DUAL_ENERGY with
  | false => rfl
  | true =>
    simp only [if_true]
    rw [Function.update_noteq (h2 hD), Function.update_noteq h1]

/-- The density is never changed after the flux update. -/
theorem finalCell_DENS (c : Config) (E : Ext) (a : Args) (m : Mem) (idx : Nat)
    (hE : c.DUAL_ENERGY = true → c.ENPY ≠ DENS) :
    finalCell c E a m idx DENS = fluxUpdate c a idx DENS := by
  unfold finalCell cellUpdate
  rw [dualEnergyStep_ne c E a idx _ _ DENS (by decide) (fun h => (hE h).symm),
    passiveStep_fluid c a _ DENS (by decide), barotropicStep_ne c E a idx _ DENS (by decide)]

/-! ## Index bounds -/

theorem i_out_lt (c : Config) (idx : Nat) (hP : 1 ≤ c.PS2) : i_out c idx < c.PS2 :=
  Nat.mod_lt _ (by omega)

theorem j_out_lt (c : Config) (idx : Nat) (hP : 1 ≤ c.PS2) : j_out c idx < c.PS2 := by
  unfold j_out SQR
  have hpos : 0 < c.PS2 := by omega
  rw [Nat.div_lt_iff_lt_mul hpos]
  exact Nat.mod_lt _ (Nat.mul_pos hpos hpos)

theorem k_out_lt (c : Config) (idx : Nat) (hP : 1 ≤ c.PS2) (hidx : idx < CUBE c.PS2) :
    k_out c idx < c.PS2 := by
  unfold k_out SQR
  unfold CUBE at hidx
  have hpos : 0 < c.PS2 := by omega
  rw [Nat.div_lt_iff_lt_mul (Nat.mul_pos hpos hpos)]
  calc idx < c.PS2 * c.PS2 * c.PS2 := hidx
    _ = c.PS2 * (c.PS2 * c.PS2) := by ring

theorem CUBE_mono {n k : Nat} (h : n ≤ k) : CUBE n ≤ CUBE k := by
  unfold CUBE
  exact Nat.mul_le_mul (Nat.mul_le_mul h h) h

theorem didx_flux_le_offset3 (c : Config) (d x y z : Nat) :
    didx_flux c d ≤ offset3 c.N_FL_FLUX (x + 1) (y + 1) (z + 1) := by
  have h2 : c.N_FL_FLUX ^ 2 = c.N_FL_FLUX * c.N_FL_FLUX := by ring
  have e : offset3 c.N_FL_FLUX (x + 1) (y + 1) (z + 1)
      = 1 + c.N_FL_FLUX + c.N_FL_FLUX * c.N_FL_FLUX
        + (x + c.N_FL_FLUX * y + c.N_FL_FLUX * c.N_FL_FLUX * z) := by
    unfold offset3; ring
  rw [e]
  unfold didx_flux SQR
  split <;> omega

theorem dFlux_eq_nb (c : Config) (a : Args) (idx d v : Nat) :
    dFlux c a idx d v =
      if c.MHD then a.g_Flux d v (idx_flux c idx) - a.g_Flux d v (idx_flux_nb c idx d)
      else a.g_Flux d v (idx_flux_nb c idx d) - a.g_Flux d v (idx_flux c idx) := by
  unfold dFlux idx_flux_nb
  split <;> rfl

/-! ## The passes of the loop -/

/-- C1: in the plain hydrodynamic build (no MHD, no barotropic equation of state, no dual
energy, no passive scalars) with `FullStepFailure == NULL`, every output cell `(i,j,k)` and
field `v < NCOMP_TOTAL` receives the input value of cell `(i+G, j+G, k+G)` minus `dt/dh` times
the sum over the three axes of the flux at face `(i,j,k)+e_d` minus the flux at face `(i,j,k)`,
faces being addressed with stride `N_FL_FLUX`. -/
theorem C1_flux_divergence_update (c : Config) (E : Ext) (a : Args) (m : Mem)
    (hM : c.MHD = false) (hB : c.BAROTROPIC_EOS = false) (hD : c.DUAL_ENERGY = false)
    (hP : c.NCOMP_PASSIVE = 0) (hF : m.FullStepFailure = none)
    (i j k v : Nat) (hi : i < c.PS2) (hj : j < c.PS2) (hk : k < c.PS2)
    (hv : v < c.NCOMP_TOTAL) :
    (Hydro_FullStepUpdate c E a m).g_Output v (i + c.PS2 * j + c.PS2 ^ 2 * k) =
      a.g_Input v (offset3 c.FLU_NXT (i + c.FLU_GHOST_SIZE) (j + c.FLU_GHOST_SIZE)
          (k + c.FLU_GHOST_SIZE))
        - a.dt / a.dh *
          ((a.g_Flux 0 v (offset3 c.N_FL_FLUX (i + 1) j k)
              - a.g_Flux 0 v (offset3 c.N_FL_FLUX i j k))
            + (a.g_Flux 1 v (offset3 c.N_FL_FLUX i (j + 1) k)
              - a.g_Flux 1 v (offset3 c.N_FL_FLUX i j k))
            + (a.g_Flux 2 v (offset3 c.N_FL_FLUX i j (k + 1))
              - a.g_Flux 2 v (offset3 c.N_FL_FLUX i j k))) := by
  have hlt := offset3_lt c.PS2 i j k hi hj hk
  have hw := (cellLoop_complete c E a (CUBE c.PS2) 0 m (Or.inl hF) (offset3 c.PS2 i j k)
    (Nat.zero_le _) (by omega)).1 v hv
  have e1 := i_out_offset3 c i j k hi
  have e2 := j_out_offset3 c i j k hi hj
  have e3 := k_out_offset3 c i j k hi hj
  have hx : offset3 c.N_FL_FLUX i j k + 1 = offset3 c.N_FL_FLUX (i + 1) j k := by
    unfold offset3; ring
  have hy : offset3 c.N_FL_FLUX i j k + c.N_FL_FLUX = offset3 c.N_FL_FLUX i (j + 1) k := by
    unfold offset3; ring
  have hz : offset3 c.N_FL_FLUX i j k + SQR c.N_FL_FLUX = offset3 c.N_FL_FLUX i j (k + 1) := by
    unfold offset3 SQR; ring
  unfold Hydro_FullStepUpdate
  change (cellLoop c E a (CUBE c.PS2) 0 m).g_Output v (offset3 c.PS2 i j k) = _
  rw [hw, finalCell_plain c E a m _ hB hD hP]
  simp only [fluxUpdate, hv, if_true, dFlux, hM, idx_flux, idx_in, e1, e2, e3,
    IDX321_eq_offset3, didx_flux, hx, hy, hz, Bool.false_eq_true, if_false]

/-- Witness of C1 on the 2x2x2 plain build, output cell `(1,1,0)`, density. -/
theorem C1_flux_divergence_update_witness :
    plainConfig.MHD = false ∧ (exampleMem none).FullStepFailure = none ∧ 1 < plainConfig.PS2 ∧
    (Hydro_FullStepUpdate plainConfig exampleExt (exampleArgs 26 0 1) (exampleMem none)).g_Output
        DENS (1 + plainConfig.PS2 * 1 + plainConfig.PS2 ^ 2 * 0) = -1 := by
  refine ⟨rfl, rfl, by decide, ?_⟩
  rw [C1_flux_divergence_update plainConfig exampleExt (exampleArgs 26 0 1) (exampleMem none)
    rfl rfl rfl rfl rfl 1 1 0 DENS (by decide) (by decide) (by decide) (by decide)]
  norm_num [exampleArgs, offset3, plainConfig]

/-- C2: in exact arithmetic, when the kernel runs to completion and neither floor,
normalization nor dual-energy correction changes field `v` (the finalized value of `v` is
the flux update in every cell), the sum of `g_Output[v]` over the `CUBE(PS2)` output cells
equals the sum of `g_Input[v]` over the interior input cells minus `dt/dh` times the net flux
of `v` through the outer boundary faces of the block; with zero net boundary flux the two
sums are equal. -/
theorem C2_conservation (c : Config) (E : Ext) (a : Args) (m : Mem) (v : Nat)
    (hv : v < c.NCOMP_TOTAL)
    (hrun : m.FullStepFailure = none ∨ a.MinMod_Max_Iter ≤ a.Iteration ∨
      (m.FullStepFailure ≠ some 1 ∧
        ∀ j, j < CUBE c.PS2 → unphysical c E a m j = false))
    (hraw : ∀ j, j < CUBE c.PS2 → finalCell c E a m j v = fluxUpdate c a j v) :
    outputSum c (Hydro_FullStepUpdate c E a m).g_Output v
        = interiorInputSum c a v - a.dt / a.dh * netBoundaryFlux c a v ∧
    (netBoundaryFlux c a v = 0 →
      outputSum c (Hydro_FullStepUpdate c E a m).g_Output v = interiorInputSum c a v) := by
  have hrun1 : m.FullStepFailure = none ∨ a.MinMod_Max_Iter ≤ a.Iteration ∨
      (m.FullStepFailure ≠ some 1 ∧
        ∀ j, 0 ≤ j → j < 0 + CUBE c.PS2 → unphysical c E a m j = false) := by
    rcases hrun with h | h | ⟨h1, h2⟩
    · exact Or.inl h
    · exact Or.inr (Or.inl h)
    · exact Or.inr (Or.inr ⟨h1, fun j _ hj => h2 j (by omega)⟩)
  have hcell : ∀ j, j < CUBE c.PS2 →
      (Hydro_FullStepUpdate c E a m).g_Output v j = fluxUpdate c a j v := by
    intro j hj
    rw [← hraw j hj]
    exact (cellLoop_complete c E a (CUBE c.PS2) 0 m hrun1 j (Nat.zero_le _) (by omega)).1 v hv
  have hmain : outputSum c (Hydro_FullStepUpdate c E a m).g_Output v
      = interiorInputSum c a v - a.dt / a.dh * netBoundaryFlux c a v := by
    unfold outputSum
    rw [Finset.sum_congr rfl (fun j hj => hcell j (Finset.mem_range.mp hj)),
      sum_range_cube_eq, ← sum_dFlux_eq_net c a v]
    unfold interiorInputSum
    simp only [Finset.mul_sum, ← Finset.sum_sub_distrib]
    apply Finset.sum_congr rfl
    intro k _
    apply Finset.sum_congr rfl
    intro j hj
    apply Finset.sum_congr rfl
    intro i hi
    simp only [fluxUpdate, hv, if_true,
      idx_in_offset3 c i j k (Finset.mem_range.mp hi) (Finset.mem_range.mp hj)]
  refine ⟨hmain, ?_⟩
  intro h0
  rw [hmain, h0]
  ring

/-- Witness of C2: the density of the 2x2x2 plain block with vanishing fluxes, run with
`FullStepFailure == NULL`. -/
theorem C2_conservation_witness :
    DENS < plainConfig.NCOMP_TOTAL ∧ (exampleMem none).FullStepFailure = none ∧
    netBoundaryFlux plainConfig (exampleArgs 26 0 1) DENS = 0 ∧
    outputSum plainConfig
        (Hydro_FullStepUpdate plainConfig exampleExt (exampleArgs 26 0 1)
          (exampleMem none)).g_Output DENS
      = interiorInputSum plainConfig (exampleArgs 26 0 1) DENS := by
  have hn : netBoundaryFlux plainConfig (exampleArgs 26 0 1) DENS = 0 := by
    simp [netBoundaryFlux, exampleArgs]
  exact ⟨by decide, rfl, hn,
    (C2_conservation plainConfig exampleExt (exampleArgs 26 0 1) (exampleMem none) DENS
      (by decide) (Or.inl rfl)
      (fun j _ => by rw [finalCell_plain plainConfig exampleExt _ _ j rfl rfl rfl])).2 hn⟩

/-- C3: with `FullStepFailure != NULL` and `*FullStepFailure == 0` on entry, whatever
`Iteration` and `MinMod_Max_Iter` are, the flag is 1 on return exactly when some output cell
has a finalized state that `Hydro_CheckUnphysical` classifies unphysical, and it is still 0
otherwise; in particular a block with exactly one unphysical cell and
`Iteration < MinMod_Max_Iter` reports failure. -/
theorem C3_failure_reported_iff (c : Config) (E : Ext) (a : Args) (m : Mem)
    (h0 : m.FullStepFailure = some 0) :
    ((Hydro_FullStepUpdate c E a m).FullStepFailure = some 1 ↔
        ∃ j, j < CUBE c.PS2 ∧ unphysical c E a m j = true) ∧
    ((¬ ∃ j, j < CUBE c.PS2 ∧ unphysical c E a m j = true) →
        (Hydro_FullStepUpdate c E a m).FullStepFailure = some 0) ∧
    (∀ k, k < CUBE c.PS2 → unphysical c E a m k = true →
        (∀ j, j < CUBE c.PS2 → j ≠ k → unphysical c E a m j = false) →
        a.Iteration < a.MinMod_Max_Iter →
        (Hydro_FullStepUpdate c E a m).FullStepFailure = some 1) := by
  have hbad : (∃ j, j < CUBE c.PS2 ∧ unphysical c E a m j = true) →
      (Hydro_FullStepUpdate c E a m).FullStepFailure = some 1 := by
    rintro ⟨j, hj, hu⟩
    exact cellLoop_flag_bad c E a (CUBE c.PS2) 0 m 0 h0 ⟨j, Nat.zero_le _, by omega, hu⟩
  have hgood : (¬ ∃ j, j < CUBE c.PS2 ∧ unphysical c E a m j = true) →
      (Hydro_FullStepUpdate c E a m).FullStepFailure = some 0 := by
    intro hn
    apply cellLoop_flag_good c E a (CUBE c.PS2) 0 m 0 h0
    intro j _ hj
    by_contra hu
    exact hn ⟨j, by omega, by simpa using hu⟩
  refine ⟨⟨?_, hbad⟩, hgood, ?_⟩
  · intro h1
    by_contra hn
    rw [hgood hn] at h1
    cases h1
  · intro k hk hu _ _
    exact hbad ⟨k, hk, hu⟩

/-- Witness of C3: the 2x2x2 plain build where only output cell 3 is unphysical, entered with
the flag 0 and `Iteration = 0 < 1 = MinMod_Max_Iter`, returns with the flag 1. -/
theorem C3_failure_reported_iff_witness :
    (exampleMem (some 0)).FullStepFailure = some 0 ∧
    unphysical plainConfig exampleExt (exampleArgs 26 0 1) (exampleMem (some 0)) 3 = true ∧
    (Hydro_FullStepUpdate plainConfig exampleExt (exampleArgs 26 0 1)
      (exampleMem (some 0))).FullStepFailure = some 1 := by
  have hu : unphysical plainConfig exampleExt (exampleArgs 26 0 1) (exampleMem (some 0)) 3
      = true := by
    norm_num [unphysical, finalCell, cellUpdate, dualEnergyStep, passiveStep, barotropicStep,
      fluxUpdate, plainConfig, exampleExt, exampleArgs, idx_in, i_out, j_out, k_out, IDX321,
      SQR, Config.NCOMP_TOTAL, NCOMP_FLUID, DENS, ENGY, dFlux]
  exact ⟨rfl, hu, (C3_failure_reported_iff plainConfig exampleExt (exampleArgs 26 0 1)
    (exampleMem (some 0)) rfl).1.mpr ⟨3, by decide, hu⟩⟩

/-- C4: with `FullStepFailure != NULL` and `Iteration >= MinMod_Max_Iter` the kernel does not
return early: every one of the `CUBE(PS2)` output cells holds its finalized state on return
(and its dual-energy status), whatever the flag was on entry and however many cells are
unphysical. -/
theorem C4_final_iteration_complete (c : Config) (E : Ext) (a : Args) (m : Mem) (f : Int)
    (hf : m.FullStepFailure = some f) (hit : a.MinMod_Max_Iter ≤ a.Iteration) :
    ∀ j, j < CUBE c.PS2 →
      (∀ v, v < c.NCOMP_TOTAL →
        (Hydro_FullStepUpdate c E a m).g_Output v j = finalCell c E a m j v) ∧
      (Hydro_FullStepUpdate c E a m).g_DE_Status j = finalStatus c E a m j := by
  intro j hj
  have _hp : m.FullStepFailure ≠ none := by rw [hf]; exact Option.some_ne_none f
  exact cellLoop_complete c E a (CUBE c.PS2) 0 m (Or.inr (Or.inl hit)) j (Nat.zero_le _)
    (by omega)

/-- Witness of C4: entered with the flag already 1 on the last iteration, with cell 3
unphysical, the kernel still writes the last cell. -/
theorem C4_final_iteration_complete_witness :
    (exampleMem (some 1)).FullStepFailure = some 1 ∧
    (exampleArgs 26 1 1).MinMod_Max_Iter ≤ (exampleArgs 26 1 1).Iteration ∧
    (Hydro_FullStepUpdate plainConfig exampleExt (exampleArgs 26 1 1)
      (exampleMem (some 1))).g_Output DENS 7 = 1 := by
  refine ⟨rfl, le_refl _, ?_⟩
  rw [(C4_final_iteration_complete plainConfig exampleExt (exampleArgs 26 1 1)
    (exampleMem (some 1)) 1 rfl (le_refl _) 7 (by decide)).1 DENS (by decide)]
  norm_num [finalCell, cellUpdate, dualEnergyStep, passiveStep, barotropicStep,
    fluxUpdate, plainConfig, exampleArgs, idx_in, i_out, j_out, k_out, IDX321,
    SQR, Config.NCOMP_TOTAL, NCOMP_FLUID, DENS, dFlux]

/-- C5: in the sequential host build, with `FullStepFailure != NULL`, the flag 0 on entry
and `Iteration < MinMod_Max_Iter`, if `k` is the smallest output index whose finalized state
is unphysical, then on return every output cell of index `<= k` holds its finalized state
and every output cell of index `> k` holds the value it had before the call. -/
theorem C5_abort_without_rollback (c : Config) (E : Ext) (a : Args) (m : Mem)
    (h0 : m.FullStepFailure = some 0) (hit : a.Iteration < a.MinMod_Max_Iter)
    (k : Nat) (hk : k < CUBE c.PS2) (hbad : unphysical c E a m k = true)
    (hmin : ∀ j, j < k → unphysical c E a m j = false) :
    (∀ j, j ≤ k → ∀ v, v < c.NCOMP_TOTAL →
      (Hydro_FullStepUpdate c E a m).g_Output v j = finalCell c E a m j v) ∧
    (∀ j, k < j → ∀ v,
      (Hydro_FullStepUpdate c E a m).g_Output v j = m.g_Output v j) := by
  obtain ⟨hA, hB⟩ := cellLoop_abort c E a (CUBE c.PS2) 0 m 0 k h0 (by decide) hit
    (Nat.zero_le _) (by omega) hbad (fun j _ hj => hmin j hj)
  exact ⟨fun j hj v hv => (hA j (Nat.zero_le _) hj).1 v hv, fun j hj v => (hB j hj).1 v⟩

/-- Witness of C5: cell 3 is the first unphysical cell of the 2x2x2 plain block; cell 4 keeps
the 7 it held before the call. -/
theorem C5_abort_without_rollback_witness :
    (exampleMem (some 0)).FullStepFailure = some 0 ∧
    (exampleArgs 26 0 1).Iteration < (exampleArgs 26 0 1).MinMod_Max_Iter ∧
    3 < CUBE plainConfig.PS2 ∧
    unphysical plainConfig exampleExt (exampleArgs 26 0 1) (exampleMem (some 0)) 3 = true ∧
    (∀ j, j < 3 →
      unphysical plainConfig exampleExt (exampleArgs 26 0 1) (exampleMem (some 0)) j = false) ∧
    (Hydro_FullStepUpdate plainConfig exampleExt (exampleArgs 26 0 1)
      (exampleMem (some 0))).g_Output DENS 4 = 7 := by
  have hu : unphysical plainConfig exampleExt (exampleArgs 26 0 1) (exampleMem (some 0)) 3
      = true := by
    norm_num [unphysical, finalCell, cellUpdate, dualEnergyStep, passiveStep, barotropicStep,
      fluxUpdate, plainConfig, exampleExt, exampleArgs, idx_in, i_out, j_out, k_out, IDX321,
      SQR, Config.NCOMP_TOTAL, NCOMP_FLUID, DENS, ENGY, dFlux]
  have hg : ∀ j, j < 3 →
      unphysical plainConfig exampleExt (exampleArgs 26 0 1) (exampleMem (some 0)) j
        = false := by
    intro j hj
    interval_cases j <;>
    norm_num [unphysical, finalCell, cellUpdate, dualEnergyStep, passiveStep, barotropicStep,
      fluxUpdate, plainConfig, exampleExt, exampleArgs, idx_in, i_out, j_out, k_out, IDX321,
      SQR, Config.NCOMP_TOTAL, NCOMP_FLUID, DENS, ENGY, dFlux]
  refine ⟨rfl, by decide, by decide, hu, hg, ?_⟩
  rw [(C5_abort_without_rollback plainConfig exampleExt (exampleArgs 26 0 1)
    (exampleMem (some 0)) rfl (by decide) 3 (by decide) hu hg).2 4 (by decide) DENS]
  rfl

/-- C6, counterexample: in the 2x2x2 plain build with `Iteration = 0 < 1 = MinMod_Max_Iter`
and no unphysical cell, the call entered with the flag 0 returns the flag 0 and writes cell 1,
while the call with the same inputs entered with the flag 1 returns the flag 1 and leaves
cell 1 at the 7 it held before. -/
theorem C6_entry_flag_counterexample :
    (∀ j, j < CUBE plainConfig.PS2 →
      unphysical plainConfig exampleExt (exampleArgs 1000 0 1) (exampleMem (some 0)) j
        = false) ∧
    (Hydro_FullStepUpdate plainConfig exampleExt (exampleArgs 1000 0 1)
      (exampleMem (some 0))).FullStepFailure = some 0 ∧
    (Hydro_FullStepUpdate plainConfig exampleExt (exampleArgs 1000 0 1)
      (exampleMem (some 1))).FullStepFailure = some 1 ∧
    (Hydro_FullStepUpdate plainConfig exampleExt (exampleArgs 1000 0 1)
      (exampleMem (some 0))).g_Output DENS 1 = 1 ∧
    (Hydro_FullStepUpdate plainConfig exampleExt (exampleArgs 1000 0 1)
      (exampleMem (some 1))).g_Output DENS 1 = 7 := by
  have hg : ∀ j, j < CUBE plainConfig.PS2 →
      unphysical plainConfig exampleExt (exampleArgs 1000 0 1) (exampleMem (some 0)) j
        = false := by
    intro j hj
    have hj8 : j < 8 := hj
    interval_cases j <;>
    norm_num [unphysical, finalCell, cellUpdate, dualEnergyStep, passiveStep, barotropicStep,
      fluxUpdate, plainConfig, exampleExt, exampleArgs, idx_in, i_out, j_out, k_out, IDX321,
      SQR, Config.NCOMP_TOTAL, NCOMP_FLUID, DENS, ENGY, dFlux]
  refine ⟨hg, ?_, ?_, ?_, ?_⟩
  · exact cellLoop_flag_good plainConfig exampleExt _ _ 0 _ 0 rfl (fun j _ hj => hg j (by omega))
  · exact cellLoop_flag_one plainConfig exampleExt _ _ 0 _ rfl
  · have h := (cellLoop_complete plainConfig exampleExt (exampleArgs 1000 0 1)
      (CUBE plainConfig.PS2) 0 (exampleMem (some 0))
      (Or.inr (Or.inr ⟨by simp [exampleMem], fun j _ hj => hg j (by omega)⟩)) 1
      (by decide) (by decide)).1 DENS (by decide)
    unfold Hydro_FullStepUpdate
    rw [h]
    norm_num [finalCell, cellUpdate, dualEnergyStep, passiveStep, barotropicStep,
      fluxUpdate, plainConfig, exampleArgs, idx_in, i_out, j_out, k_out, IDX321,
      SQR, Config.NCOMP_TOTAL, NCOMP_FLUID, DENS, dFlux]
  · have h := cellLoop_entry_set plainConfig exampleExt (exampleArgs 1000 0 1) 7 0
      (exampleMem (some 1)) rfl (by decide)
    have h8 : CUBE plainConfig.PS2 = 7 + 1 := by decide
    unfold Hydro_FullStepUpdate
    rw [h8, h, loopBody_output]
    simp [exampleMem]

/-- C6, amended: the kernel reads `*FullStepFailure` on entry and never clears it.  Of two
calls with the same inputs entered with the flag 0 and with the flag 1, the one entered with
1 returns 1; when `Iteration >= MinMod_Max_Iter` both leave the same output block and status
array; when `Iteration < MinMod_Max_Iter` the one entered with 1 writes output cell 0 only.
A call entered with the flag 0 in which no cell is unphysical returns the flag 0 and writes
every cell. -/
theorem C6_entry_flag_amended (c : Config) (E : Ext) (a : Args) (m : Mem) :
    (Hydro_FullStepUpdate c E a (m.setFlag 1)).FullStepFailure = some 1 ∧
    (a.MinMod_Max_Iter ≤ a.Iteration →
      (Hydro_FullStepUpdate c E a (m.setFlag 0)).g_Output
          = (Hydro_FullStepUpdate c E a (m.setFlag 1)).g_Output ∧
      (Hydro_FullStepUpdate c E a (m.setFlag 0)).g_DE_Status
          = (Hydro_FullStepUpdate c E a (m.setFlag 1)).g_DE_Status) ∧
    (a.Iteration < a.MinMod_Max_Iter → 0 < CUBE c.PS2 →
      ∀ v j, (Hydro_FullStepUpdate c E a (m.setFlag 1)).g_Output v j =
        if j = 0 ∧ v < c.NCOMP_TOTAL then finalCell c E a m 0 v else m.g_Output v j) ∧
    ((∀ j, j < CUBE c.PS2 → unphysical c E a m j = false) →
      (Hydro_FullStepUpdate c E a (m.setFlag 0)).FullStepFailure = some 0 ∧
      ∀ j, j < CUBE c.PS2 → ∀ v, v < c.NCOMP_TOTAL →
        (Hydro_FullStepUpdate c E a (m.setFlag 0)).g_Output v j = finalCell c E a m j v) := by
  refine ⟨cellLoop_flag_one c E a _ 0 _ rfl, ?_, ?_, ?_⟩
  · intro hit
    have h0 := cellLoop_complete c E a (CUBE c.PS2) 0 (m.setFlag 0) (Or.inr (Or.inl hit))
    have h1 := cellLoop_complete c E a (CUBE c.PS2) 0 (m.setFlag 1) (Or.inr (Or.inl hit))
    constructor
    · funext v j
      unfold Hydro_FullStepUpdate
      by_cases hj : j < CUBE c.PS2 ∧ v < c.NCOMP_TOTAL
      · rw [(h0 j (Nat.zero_le _) (by omega)).1 v hj.2,
          (h1 j (Nat.zero_le _) (by omega)).1 v hj.2]
        rfl
      · rw [cellLoop_output_frame c E a _ 0 _ v j (by omega),
          cellLoop_output_frame c E a _ 0 _ v j (by omega)]
        rfl
    · funext j
      unfold Hydro_FullStepUpdate
      by_cases hj : j < CUBE c.PS2
      · rw [(h0 j (Nat.zero_le _) (by omega)).2, (h1 j (Nat.zero_le _) (by omega)).2]
        rfl
      · rw [cellLoop_status_frame c E a _ 0 _ j (by omega),
          cellLoop_status_frame c E a _ 0 _ j (by omega)]
        rfl
  · intro hit hpos v j
    obtain ⟨n, hn⟩ : ∃ n, CUBE c.PS2 = n + 1 := ⟨CUBE c.PS2 - 1, by omega⟩
    unfold Hydro_FullStepUpdate
    rw [hn, cellLoop_entry_set c E a n 0 (m.setFlag 1) rfl hit, loopBody_output]
    rfl
  · intro hg
    constructor
    · exact cellLoop_flag_good c E a _ 0 (m.setFlag 0) 0 rfl (fun j _ hj => hg j (by omega))
    · intro j hj v hv
      exact (cellLoop_complete c E a (CUBE c.PS2) 0 (m.setFlag 0)
        (Or.inr (Or.inr ⟨by simp [Mem.setFlag], fun j _ hj => hg j (by omega)⟩)) j
        (Nat.zero_le _) (by omega)).1 v hv

/-- Witness of the amended C6 on the 2x2x2 plain build without unphysical cell: entered with
the flag 1 and iterations left, the call writes cell 0 only. -/
theorem C6_entry_flag_amended_witness :
    (exampleArgs 1000 0 1).Iteration < (exampleArgs 1000 0 1).MinMod_Max_Iter ∧
    0 < CUBE plainConfig.PS2 ∧
    (Hydro_FullStepUpdate plainConfig exampleExt (exampleArgs 1000 0 1)
      ((exampleMem none).setFlag 1)).g_Output DENS 5 = 7 := by
  refine ⟨by decide, by decide, ?_⟩
  rw [(C6_entry_flag_amended plainConfig exampleExt (exampleArgs 1000 0 1)
    (exampleMem none)).2.2.1 (by decide) (by decide) DENS 5]
  simp [exampleMem]

/-- C8: with `OPT__FIXUP_RESTRICT`, `OPT__FIXUP_ELECTRIC` and `OPT__FIXUP_FLUX` all disabled,
`Flu_FixUp( lv )` calls no corrector and leaves the state (the data of all levels and the
storage indices) as it was. -/
theorem C8_fixup_flags_off {D : Type} (o : FixUpOpt) (K : Correctors D) (lv : Int)
    (w : World D) (hR : o.OPT__FIXUP_RESTRICT = false) (hE : o.OPT__FIXUP_ELECTRIC = false)
    (hF : o.OPT__FIXUP_FLUX = false) :
    Flu_FixUp o K lv w = w ∧ callsOf o K lv w.amr = [] := by
  simp [callsOf, Flu_FixUp, fixUpFlux, fixUpElectric, fixUpRestrict, hR, hE, hF]

/-- Witness of C8: an MHD build with the three flags off, with correctors that would change
the data. -/
theorem C8_fixup_flags_off_witness :
    exampleOpt.OPT__FIXUP_RESTRICT = false ∧ exampleOpt.OPT__FIXUP_ELECTRIC = false ∧
    exampleOpt.OPT__FIXUP_FLUX = false ∧
    (Flu_FixUp exampleOpt exampleCorrectors 3 exampleWorld).amr.data = 5 := by
  refine ⟨rfl, rfl, rfl, ?_⟩
  rw [(C8_fixup_flags_off exampleOpt exampleCorrectors 3 exampleWorld rfl rfl rfl).1]
  rfl

/-- C9, counterexample: in the build with two passive scalars, both listed for normalisation,
the input cell has density 1 and scalars 1 and -5; the second scalar is floored to
`TINY_NUMBER = 1/1000000` and then rescaled by `1 / (1 + 1/1000000)`, so the value stored in
`g_Output` is `1/1000001`, below the floor. -/
theorem C9_passive_floor_counterexample :
    Written passiveConfig exampleExt passiveArgs (exampleMem none) 0 ∧
    NCOMP_FLUID ≤ 6 ∧ 6 < passiveConfig.NCOMP_TOTAL ∧
    (Hydro_FullStepUpdate passiveConfig exampleExt passiveArgs (exampleMem none)).g_Output 6 0
      = 1 / 1000001 ∧
    ¬ (passiveConfig.TINY_NUMBER ≤
      (Hydro_FullStepUpdate passiveConfig exampleExt passiveArgs (exampleMem none)).g_Output
        6 0) := by
  have hw : Written passiveConfig exampleExt passiveArgs (exampleMem none) 0 :=
    ⟨by decide, Or.inl rfl⟩
  have hval : (Hydro_FullStepUpdate passiveConfig exampleExt passiveArgs
      (exampleMem none)).g_Output 6 0 = 1 / 1000001 := by
    rw [(written_output passiveConfig exampleExt passiveArgs (exampleMem none) 0 hw).1 6
      (by decide)]
    norm_num [finalCell, cellUpdate, dualEnergyStep, passiveStep, normalizeStep,
      Hydro_NormalizePassive, floorPassive, barotropicStep, fluxUpdate, FMAX, dFlux,
      passiveConfig, passiveArgs, Config.NCOMP_TOTAL, NCOMP_FLUID, DENS, List.range_succ,
      Function.update]
  refine ⟨hw, by decide, by decide, hval, ?_⟩
  rw [hval]
  norm_num [passiveConfig]

/-- C9, amended: in a build with `NCOMP_PASSIVE > 0` and `TINY_NUMBER > 0`, for every output
cell that is written, every passive scalar `v` other than the dual-energy variable of a
dual-energy build is `>= TINY_NUMBER` in `g_Output` when `NormPassive` is not set, or `v` is
not listed in `NormIdx`, or the factor of the normaliser (density over the sum of the listed
floored scalars) is at least 1. -/
theorem C9_passive_floor_amended (c : Config) (E : Ext) (a : Args) (m : Mem) (j v : Nat)
    (hw : Written c E a m j) (hP : 0 < c.NCOMP_PASSIVE) (hT : 0 < c.TINY_NUMBER)
    (h1 : NCOMP_FLUID ≤ v) (h2 : v < c.NCOMP_TOTAL)
    (hE : c.DUAL_ENERGY = true → v ≠ c.ENPY)
    (hN : a.NormPassive = false ∨ (∀ n, n < a.NNorm → NCOMP_FLUID + a.NormIdx n ≠ v) ∨
      1 ≤ normFactor c E a j) :
    c.TINY_NUMBER ≤ (Hydro_FullStepUpdate c E a m).g_Output v j := by
  have hne : v ≠ ENGY := by unfold ENGY; unfold NCOMP_FLUID at h1; omega
  have hfl : c.TINY_NUMBER ≤ flooredCell c E a j v := by
    rw [flooredCell_passive c E a j v h1 h2]
    exact FMAX_ge_right _ _
  rw [(written_output c E a m j hw).1 v h2,
    finalCell_passive_build c E a m j v hP (fun hD => ⟨hne, hE hD⟩)]
  cases hNP : a.NormPassive with
  | false => rw [normalizeStep_off a _ hNP]; exact hfl
  | true =>
    rw [normalizeStep_passive c E a j v hNP h1]
    rcases hN with h | h | h
    · rw [hNP] at h; cases h
    · have hempty : (Finset.range a.NNorm).filter (fun n => NCOMP_FLUID + a.NormIdx n = v)
          = ∅ := by
        apply Finset.filter_eq_empty_iff.mpr
        intro n hn
        exact h n (Finset.mem_range.mp hn)
      rw [hempty, Finset.card_empty, pow_zero, mul_one]
      exact hfl
    · have hpow : 1 ≤ normFactor c E a j
          ^ ((Finset.range a.NNorm).filter (fun n => NCOMP_FLUID + a.NormIdx n = v)).card :=
        one_le_pow₀ h
      have h0 : 0 ≤ flooredCell c E a j v := le_trans (le_of_lt hT) hfl
      exact le_trans hfl (le_mul_of_one_le_right h0 hpow)

/-- Witness of the amended C9: the first scalar of the same cell without normalisation. -/
theorem C9_passive_floor_amended_witness :
    Written passiveConfig exampleExt { passiveArgs with NormPassive := false }
      (exampleMem none) 0 ∧
    0 < passiveConfig.NCOMP_PASSIVE ∧ 0 < passiveConfig.TINY_NUMBER ∧
    passiveConfig.TINY_NUMBER ≤
      (Hydro_FullStepUpdate passiveConfig exampleExt { passiveArgs with NormPassive := false }
        (exampleMem none)).g_Output 6 0 :=
  ⟨⟨by decide, Or.inl rfl⟩, by decide, by norm_num [passiveConfig],
    C9_passive_floor_amended passiveConfig exampleExt { passiveArgs with NormPassive := false }
      (exampleMem none) 0 6 ⟨by decide, Or.inl rfl⟩ (by decide) (by norm_num [passiveConfig])
      (by decide) (by decide) (fun h => by cases h) (Or.inl rfl)⟩

/-- C11: the kernel applies no density floor and, outside the barotropic build, no
internal-energy floor.  The density of every written cell is the raw flux update, also when
it is negative or below `MinDens`; two calls that differ only in `MinDens` leave the same
block, status array and flag in every build; two calls that differ only in `MinEint` do so
in every build without barotropic equation of state, the dual-energy build included, where
`Hydro_DualEnergyFix` is only ever invoked with `CheckMinPres = false` and
`MinPres = NULL_REAL` (the result does not depend on what the corrector does for other
values of these two arguments). -/
theorem C11_no_floor_in_kernel (c : Config) (E : Ext) (a : Args) (m : Mem) :
    (∀ j, Written c E a m j → (c.DUAL_ENERGY = true → c.ENPY ≠ DENS) →
      (Hydro_FullStepUpdate c E a m).g_Output DENS j = fluxUpdate c a j DENS) ∧
    (∀ x, Hydro_FullStepUpdate c E (a.withMinDens x) m = Hydro_FullStepUpdate c E a m) ∧
    (c.BAROTROPIC_EOS = false →
      ∀ x, Hydro_FullStepUpdate c E (a.withMinEint x) m = Hydro_FullStepUpdate c E a m) ∧
    (∀ fix : ℚ → ℚ → ℚ → ℚ → ℚ → ℚ → Int → ℚ → ℚ → Bool → ℚ → ℚ → ℚ → ℚ × ℚ × Int,
      (∀ Dens MomX MomY MomZ Engy Enpy status Gamma_m1 Gamma_m1_inv DES Em,
        fix Dens MomX MomY MomZ Engy Enpy status Gamma_m1 Gamma_m1_inv false c.NULL_REAL DES Em
          = E.Hydro_DualEnergyFix Dens MomX MomY MomZ Engy Enpy status Gamma_m1 Gamma_m1_inv
              false c.NULL_REAL DES Em) →
      Hydro_FullStepUpdate c (E.withDualEnergyFix fix) a m = Hydro_FullStepUpdate c E a m) := by
  refine ⟨?_, ?_, ?_, ?_⟩
  · intro j hw hE
    have hlt : DENS < c.NCOMP_TOTAL := by
      unfold DENS Config.NCOMP_TOTAL NCOMP_FLUID
      omega
    rw [(written_output c E a m j hw).1 DENS hlt, finalCell_DENS c E a m j hE]
  · intro x
    have h : ∀ idx m1, loopBody c E (a.withMinDens x) idx m1 = loopBody c E a idx m1 :=
      fun idx m1 => rfl
    exact cellLoop_congr h _ _ _
  · intro hB x
    apply cellLoop_congr
    intro idx m
    have hcell : ∀ st, cellUpdate c E (a.withMinEint x) st idx = cellUpdate c E a st idx := by
      intro st
      have hb : ∀ u, barotropicStep c E (a.withMinEint x) idx u = u := by
        intro u; unfold barotropicStep; rw [hB]; rfl
      have hb1 : ∀ u, barotropicStep c E a idx u = u := by
        intro u; unfold barotropicStep; rw [hB]; rfl
      unfold cellUpdate
      rw [hb, hb1]
      rfl
    unfold loopBody
    rw [hcell]
    rfl
  · intro fix hfix
    apply cellLoop_congr
    intro idx m
    have hcell : ∀ st, cellUpdate c (E.withDualEnergyFix fix) a st idx
        = cellUpdate c E a st idx := by
      intro st
      have hd : ∀ u, dualEnergyStep c (E.withDualEnergyFix fix) a idx st u
          = dualEnergyStep c E a idx st u := by
        intro u
        unfold dualEnergyStep
        split
        · simp only [Ext.withDualEnergyFix]
          rw [hfix]
          rfl
        · rfl
      unfold cellUpdate
      rw [hd]
      rfl
    unfold loopBody
    rw [hcell]
    rfl

/-- Witness of C11: output cell 3 of the 2x2x2 plain block receives the negative density -1
of its flux update although `MinDens` is 0. -/
theorem C11_no_floor_in_kernel_witness :
    Written plainConfig exampleExt (exampleArgs 26 0 1) (exampleMem none) 3 ∧
    (exampleArgs 26 0 1).MinDens = 0 ∧
    (Hydro_FullStepUpdate plainConfig exampleExt (exampleArgs 26 0 1)
      (exampleMem none)).g_Output DENS 3 = -1 := by
  have hw : Written plainConfig exampleExt (exampleArgs 26 0 1) (exampleMem none) 3 :=
    ⟨by decide, Or.inl rfl⟩
  refine ⟨hw, rfl, ?_⟩
  rw [(C11_no_floor_in_kernel plainConfig exampleExt (exampleArgs 26 0 1)
    (exampleMem none)).1 3 hw (fun h => by cases h)]
  norm_num [fluxUpdate, plainConfig, exampleArgs, idx_in, i_out, j_out, k_out, IDX321,
    SQR, Config.NCOMP_TOTAL, NCOMP_FLUID, DENS, dFlux]

/-- C12: with `FullStepFailure == NULL` no unphysical check is made (the result does not
depend on the detector), every one of the `CUBE(PS2)` output cells is written with its
finalized state, the pointer stays `NULL`, and the memory on return is the same for every
pair of values of `Iteration` and `MinMod_Max_Iter`. -/
theorem C12_null_flag_inert (c : Config) (E : Ext) (a : Args) (m : Mem)
    (hF : m.FullStepFailure = none) :
    (∀ j, j < CUBE c.PS2 →
      (∀ v, v < c.NCOMP_TOTAL →
        (Hydro_FullStepUpdate c E a m).g_Output v j = finalCell c E a m j v) ∧
      (Hydro_FullStepUpdate c E a m).g_DE_Status j = finalStatus c E a m j) ∧
    (Hydro_FullStepUpdate c E a m).FullStepFailure = none ∧
    (∀ it mx, Hydro_FullStepUpdate c E (a.withIteration it mx) m
      = Hydro_FullStepUpdate c E a m) ∧
    (∀ chk, Hydro_FullStepUpdate c (E.withDetector chk) a m
      = Hydro_FullStepUpdate c E a m) := by
  refine ⟨?_, cellLoop_flag_none c E a _ 0 m hF, ?_, ?_⟩
  · intro j hj
    exact cellLoop_complete c E a (CUBE c.PS2) 0 m (Or.inl hF) j (Nat.zero_le _) (by omega)
  · intro it mx
    apply cellLoop_congr_none _ _ _ _ hF
    intro idx m1 hm1
    rw [loopBody_of_none c E _ idx m1 hm1, loopBody_of_none c E a idx m1 hm1]
    rfl
  · intro chk
    apply cellLoop_congr_none _ _ _ _ hF
    intro idx m1 hm1
    rw [loopBody_of_none c _ a idx m1 hm1, loopBody_of_none c E a idx m1 hm1]
    rfl

/-- Witness of C12: the 2x2x2 plain block with an unphysical cell 3, run with the pointer
`NULL`, writes the last cell. -/
theorem C12_null_flag_inert_witness :
    (exampleMem none).FullStepFailure = none ∧
    (Hydro_FullStepUpdate plainConfig exampleExt (exampleArgs 26 0 1)
      (exampleMem none)).g_Output DENS 7 = 1 := by
  refine ⟨rfl, ?_⟩
  rw [((C12_null_flag_inert plainConfig exampleExt (exampleArgs 26 0 1) (exampleMem none)
    rfl).1 7 (by decide)).1 DENS (by decide)]
  norm_num [finalCell, cellUpdate, dualEnergyStep, passiveStep, barotropicStep,
    fluxUpdate, plainConfig, exampleArgs, idx_in, i_out, j_out, k_out, IDX321,
    SQR, Config.NCOMP_TOTAL, NCOMP_FLUID, DENS, dFlux]

/-- C13: whenever `OPT__FIXUP_RESTRICT` is set, `Flu_FixUp( lv )` calls `Flu_FixUp_Restrict`
exactly once, first, with target level `lv`, son and father fluid storage indices
`amr->FluSg[lv+1]` and `amr->FluSg[lv]` of the state on entry, both potential storage indices
`NULL_INT`, the magnetic pair `(amr->MagSg[lv+1], amr->MagSg[lv])` in an MHD build and
`(NULL_INT, NULL_INT)` otherwise, and the masks `_TOTAL` and `_MAG`.  `Flu_FixUp` changes no
state of its own: the state on return is the state on entry passed through the recorded
corrector calls, so the storage indices are those on entry when the correctors keep them. -/
theorem C13_restriction_arguments {D : Type} (o : FixUpOpt) (K : Correctors D) (lv : Int)
    (s : AMR D) (hR : o.OPT__FIXUP_RESTRICT = true) :
    (callsOf o K lv s).filter (fun cl => cl.kind == 0) =
      [Call.Flu_FixUp_Restrict lv (s.FluSg (lv + 1)) (s.FluSg lv) o.NULL_INT o.NULL_INT
        (if o.MHD then s.MagSg (lv + 1) else o.NULL_INT)
        (if o.MHD then s.MagSg lv else o.NULL_INT) o._TOTAL o._MAG] ∧
    (callsOf o K lv s).head? =
      some (Call.Flu_FixUp_Restrict lv (s.FluSg (lv + 1)) (s.FluSg lv) o.NULL_INT o.NULL_INT
        (if o.MHD then s.MagSg (lv + 1) else o.NULL_INT)
        (if o.MHD then s.MagSg lv else o.NULL_INT) o._TOTAL o._MAG) ∧
    (Flu_FixUp o K lv { amr := s, trace := [] }).amr =
      (callsOf o K lv s).foldl (fun st cl => applyCall K cl st) s ∧
    ((∀ cl st, (applyCall K cl st).FluSg = st.FluSg ∧ (applyCall K cl st).MagSg = st.MagSg) →
      (Flu_FixUp o K lv { amr := s, trace := [] }).amr.FluSg = s.FluSg ∧
      (Flu_FixUp o K lv { amr := s, trace := [] }).amr.MagSg = s.MagSg) := by
  have hfold : (Flu_FixUp o K lv { amr := s, trace := [] }).amr =
      (callsOf o K lv s).foldl (fun st cl => applyCall K cl st) s := by
    obtain ⟨mhd, r, e, f, ni, tot, mag⟩ := o
    cases mhd <;> cases r <;> cases e <;> cases f <;>
      simp [callsOf, Flu_FixUp, fixUpFlux, fixUpElectric, fixUpRestrict, applyCall]
  have hkeep : (∀ cl st, (applyCall K cl st).FluSg = st.FluSg ∧
      (applyCall K cl st).MagSg = st.MagSg) →
      ∀ (l : List Call) (st : AMR D),
        (l.foldl (fun st cl => applyCall K cl st) st).FluSg = st.FluSg ∧
        (l.foldl (fun st cl => applyCall K cl st) st).MagSg = st.MagSg := by
    intro hp l
    induction l with
    | nil => intro st; exact ⟨rfl, rfl⟩
    | cons cl l ih =>
      intro st
      rw [List.foldl_cons]
      obtain ⟨i1, i2⟩ := ih (applyCall K cl st)
      obtain ⟨p1, p2⟩ := hp cl st
      exact ⟨i1.trans p1, i2.trans p2⟩
  refine ⟨?_, ?_, hfold, ?_⟩
  · obtain ⟨mhd, r, e, f, ni, tot, mag⟩ := o
    simp only at hR
    subst hR
    cases mhd <;> cases e <;> cases f <;>
      simp [callsOf, Flu_FixUp, fixUpFlux, fixUpElectric, fixUpRestrict, Call.kind]
  · obtain ⟨mhd, r, e, f, ni, tot, mag⟩ := o
    simp only at hR
    subst hR
    cases mhd <;> cases e <;> cases f <;>
      simp [callsOf, Flu_FixUp, fixUpFlux, fixUpElectric, fixUpRestrict]
  · intro hp
    rw [hfold]
    exact hkeep hp _ s

/-- Witness of C13: the MHD build with every correction on, at level 0 of a state whose fluid
storage index is 0 and magnetic storage index is 1 on every level. -/
theorem C13_restriction_arguments_witness :
    allOnOpt.OPT__FIXUP_RESTRICT = true ∧
    (callsOf allOnOpt exampleCorrectors 0 exampleWorld.amr).head? =
      some (Call.Flu_FixUp_Restrict 0 0 0 2147483647 2147483647 1 1 31 7) := by
  refine ⟨rfl, ?_⟩
  rw [(C13_restriction_arguments allOnOpt exampleCorrectors 0 exampleWorld.amr rfl).2.1]
  simp [allOnOpt, exampleWorld]

/-- C14: assuming `PS2 >= 1`, `FLU_NXT = PS2 + 2*FLU_GHOST_SIZE`, `N_FC_FLUX >= N_FL_FLUX`, and
`N_FL_FLUX >= PS2+1` without MHD or `N_FL_FLUX >= PS2+2` with MHD, for every
`idx_out < CUBE(PS2)` and every axis `d` the indices of the kernel are in range:
`idx_in < CUBE(FLU_NXT)`, and both flux indices (`idx_flux` and `idx_flux + didx_flux[d]`
without MHD, `idx_flux` and `idx_flux - didx_flux[d]` with MHD, where this difference is not
negative) are below `CUBE(N_FL_FLUX)`, hence inside the allocated `CUBE(N_FC_FLUX)`. -/
theorem C14_index_safety (c : Config) (hP : 1 ≤ c.PS2)
    (hN : c.FLU_NXT = c.PS2 + 2 * c.FLU_GHOST_SIZE) (hFC : c.N_FL_FLUX ≤ c.N_FC_FLUX)
    (hFL : if c.MHD then c.PS2 + 2 ≤ c.N_FL_FLUX else c.PS2 + 1 ≤ c.N_FL_FLUX)
    (idx : Nat) (hidx : idx < CUBE c.PS2) (d : Nat) (hd : d < 3) :
    idx_in c idx < CUBE c.FLU_NXT ∧
    idx_flux c idx < CUBE c.N_FL_FLUX ∧
    idx_flux_nb c idx d < CUBE c.N_FL_FLUX ∧
    (c.MHD = true → didx_flux c d ≤ idx_flux c idx) ∧
    CUBE c.N_FL_FLUX ≤ CUBE c.N_FC_FLUX := by
  have hi := i_out_lt c idx hP
  have hj := j_out_lt c idx hP
  have hk := k_out_lt c idx hP hidx
  refine ⟨?_, ?_, ?_, ?_, CUBE_mono hFC⟩
  · unfold idx_in
    rw [IDX321_eq_offset3]
    exact offset3_lt _ _ _ _ (by omega) (by omega) (by omega)
  · unfold idx_flux
    cases hM : c.MHD with
    | false =>
      rw [hM] at hFL
      simp only [Bool.false_eq_true, if_false] at hFL ⊢
      rw [IDX321_eq_offset3]
      exact offset3_lt _ _ _ _ (by omega) (by omega) (by omega)
    | true =>
      rw [hM] at hFL
      simp only [if_true] at hFL ⊢
      rw [IDX321_eq_offset3]
      exact offset3_lt _ _ _ _ (by omega) (by omega) (by omega)
  · unfold idx_flux_nb idx_flux
    cases hM : c.MHD with
    | false =>
      rw [hM] at hFL
      simp only [Bool.false_eq_true, if_false] at hFL ⊢
      rw [IDX321_eq_offset3]
      have hx : offset3 c.N_FL_FLUX (i_out c idx) (j_out c idx) (k_out c idx) + 1
          = offset3 c.N_FL_FLUX (i_out c idx + 1) (j_out c idx) (k_out c idx) := by
        unfold offset3; ring
      have hy : offset3 c.N_FL_FLUX (i_out c idx) (j_out c idx) (k_out c idx) + c.N_FL_FLUX
          = offset3 c.N_FL_FLUX (i_out c idx) (j_out c idx + 1) (k_out c idx) := by
        unfold offset3; ring
      have hz : offset3 c.N_FL_FLUX (i_out c idx) (j_out c idx) (k_out c idx)
            + SQR c.N_FL_FLUX
          = offset3 c.N_FL_FLUX (i_out c idx) (j_out c idx) (k_out c idx + 1) := by
        unfold offset3 SQR; ring
      interval_cases d
      · simp only [didx_flux]
        rw [hx]
        exact offset3_lt _ _ _ _ (by omega) (by omega) (by omega)
      · simp only [didx_flux]
        rw [hy]
        exact offset3_lt _ _ _ _ (by omega) (by omega) (by omega)
      · simp only [didx_flux]
        rw [hz]
        exact offset3_lt _ _ _ _ (by omega) (by omega) (by omega)
    | true =>
      rw [hM] at hFL
      simp only [if_true] at hFL ⊢
      rw [IDX321_eq_offset3]
      exact lt_of_le_of_lt (Nat.sub_le _ _)
        (offset3_lt _ _ _ _ (by omega) (by omega) (by omega))
  · intro hM
    unfold idx_flux
    rw [hM]
    simp only [if_true]
    rw [IDX321_eq_offset3]
    exact didx_flux_le_offset3 c d _ _ _

/-- Witness of C14: the last cell of the 2x2x2 plain build along the z axis. -/
theorem C14_index_safety_witness :
    1 ≤ plainConfig.PS2 ∧
    plainConfig.FLU_NXT = plainConfig.PS2 + 2 * plainConfig.FLU_GHOST_SIZE ∧
    plainConfig.N_FL_FLUX ≤ plainConfig.N_FC_FLUX ∧
    plainConfig.PS2 + 1 ≤ plainConfig.N_FL_FLUX ∧ 7 < CUBE plainConfig.PS2 ∧
    idx_flux_nb plainConfig 7 2 < CUBE plainConfig.N_FL_FLUX :=
  ⟨by decide, by decide, by decide, by decide, by decide,
    (C14_index_safety plainConfig (by decide) (by decide) (by decide) (by decide) 7
      (by decide) 2 (by decide)).2.2.1⟩

/-- C15: in the MHD build the flux difference of output cell `(i,j,k)` along axis `d` for
field `v` is `g_Flux[d][v][face (i+1,j+1,k+1)] - g_Flux[d][v][face (i+1,j+1,k+1) - e_d]`;
equivalently the MHD kernel applied to a flux field `G` produces the flux update (and, in a
build without barotropic equation of state and dual energy, the whole result) of the non-MHD
kernel applied to the flux field `F_d(x) = G_d(x + (1,1,1) - e_d)`. -/
theorem C15_mhd_flux_shift (c : Config) (a : Args) (hM : c.MHD = true) :
    (∀ i j k d v, i < c.PS2 → j < c.PS2 → d < 3 →
      dFlux c a (offset3 c.PS2 i j k) d v
        = a.g_Flux d v (offset3 c.N_FL_FLUX (i + 1) (j + 1) (k + 1))
          - a.g_Flux d v (offset3 c.N_FL_FLUX (i + 1) (j + 1) (k + 1) - didx_flux c d)) ∧
    (∀ i j k,
      offset3 c.N_FL_FLUX (i + 1) (j + 1) (k + 1) - didx_flux c 0
        = offset3 c.N_FL_FLUX i (j + 1) (k + 1) ∧
      offset3 c.N_FL_FLUX (i + 1) (j + 1) (k + 1) - didx_flux c 1
        = offset3 c.N_FL_FLUX (i + 1) j (k + 1) ∧
      offset3 c.N_FL_FLUX (i + 1) (j + 1) (k + 1) - didx_flux c 2
        = offset3 c.N_FL_FLUX (i + 1) (j + 1) k) ∧
    (∀ idx, fluxUpdate c a idx
      = fluxUpdate c.withoutMHD (a.withFlux (shiftedFlux c a.g_Flux)) idx) ∧
    (c.BAROTROPIC_EOS = false → c.DUAL_ENERGY = false → ∀ (E : Ext) (m : Mem),
      Hydro_FullStepUpdate c E a m
        = Hydro_FullStepUpdate c.withoutMHD E (a.withFlux (shiftedFlux c a.g_Flux)) m) := by
  have hd : ∀ idx d v, dFlux c a idx d v
      = dFlux c.withoutMHD (a.withFlux (shiftedFlux c a.g_Flux)) idx d v := by
    intro idx d v
    have hI : IDX321 (i_out c idx + 1) (j_out c idx + 1) (k_out c idx + 1) c.N_FL_FLUX
          c.N_FL_FLUX
        = IDX321 (i_out c idx) (j_out c idx) (k_out c idx) c.N_FL_FLUX c.N_FL_FLUX
          + (1 + c.N_FL_FLUX + SQR c.N_FL_FLUX) := by
      unfold IDX321 SQR; ring
    have h1 : dFlux c a idx d v
        = a.g_Flux d v (IDX321 (i_out c idx) (j_out c idx) (k_out c idx) c.N_FL_FLUX
              c.N_FL_FLUX + (1 + c.N_FL_FLUX + SQR c.N_FL_FLUX))
          - a.g_Flux d v (IDX321 (i_out c idx) (j_out c idx) (k_out c idx) c.N_FL_FLUX
              c.N_FL_FLUX + (1 + c.N_FL_FLUX + SQR c.N_FL_FLUX) - didx_flux c d) := by
      unfold dFlux idx_flux
      rw [hM]
      simp only [if_true]
      rw [hI]
    have h2 : dFlux c.withoutMHD (a.withFlux (shiftedFlux c a.g_Flux)) idx d v
        = a.g_Flux d v (IDX321 (i_out c idx) (j_out c idx) (k_out c idx) c.N_FL_FLUX
              c.N_FL_FLUX + didx_flux c d + (1 + c.N_FL_FLUX + SQR c.N_FL_FLUX)
              - didx_flux c d)
          - a.g_Flux d v (IDX321 (i_out c idx) (j_out c idx) (k_out c idx) c.N_FL_FLUX
              c.N_FL_FLUX + (1 + c.N_FL_FLUX + SQR c.N_FL_FLUX) - didx_flux c d) := rfl
    have h3 : IDX321 (i_out c idx) (j_out c idx) (k_out c idx) c.N_FL_FLUX c.N_FL_FLUX
          + didx_flux c d + (1 + c.N_FL_FLUX + SQR c.N_FL_FLUX) - didx_flux c d
        = IDX321 (i_out c idx) (j_out c idx) (k_out c idx) c.N_FL_FLUX c.N_FL_FLUX
          + (1 + c.N_FL_FLUX + SQR c.N_FL_FLUX) := by omega
    rw [h1, h2, h3]
  have hu : ∀ idx, fluxUpdate c a idx
      = fluxUpdate c.withoutMHD (a.withFlux (shiftedFlux c a.g_Flux)) idx := by
    intro idx
    funext v
    unfold fluxUpdate
    rw [hd idx 0 v, hd idx 1 v, hd idx 2 v]
    rfl
  have hsub : ∀ i j k,
      offset3 c.N_FL_FLUX (i + 1) (j + 1) (k + 1) - didx_flux c 0
        = offset3 c.N_FL_FLUX i (j + 1) (k + 1) ∧
      offset3 c.N_FL_FLUX (i + 1) (j + 1) (k + 1) - didx_flux c 1
        = offset3 c.N_FL_FLUX (i + 1) j (k + 1) ∧
      offset3 c.N_FL_FLUX (i + 1) (j + 1) (k + 1) - didx_flux c 2
        = offset3 c.N_FL_FLUX (i + 1) (j + 1) k := by
    intro i j k
    refine ⟨?_, ?_, ?_⟩ <;>
    · apply Nat.sub_eq_of_eq_add
      unfold offset3 didx_flux SQR
      ring
  refine ⟨?_, hsub, hu, ?_⟩
  · intro i j k d v hi hj _
    unfold dFlux idx_flux
    rw [hM]
    simp only [if_true]
    rw [i_out_offset3 c i j k hi, j_out_offset3 c i j k hi hj, k_out_offset3 c i j k hi hj,
      IDX321_eq_offset3]
  · intro hB hD E m
    apply cellLoop_congr
    intro idx m1
    have hcell : ∀ st, cellUpdate c E a st idx
        = cellUpdate c.withoutMHD E (a.withFlux (shiftedFlux c a.g_Flux)) st idx := by
      intro st
      have hD1 : c.withoutMHD.DUAL_ENERGY = false := hD
      have hB1 : c.withoutMHD.BAROTROPIC_EOS = false := hB
      unfold cellUpdate dualEnergyStep barotropicStep
      rw [hD, hB, hD1, hB1, hu idx]
      rfl
    unfold loopBody
    rw [hcell]
    rfl

/-- Witness of C15: in the 2x2x2 MHD build with the flux at a face equal to its flat offset,
the y difference of output cell `(1,1,0)` is the stride 4. -/
theorem C15_mhd_flux_shift_witness :
    mhdConfig.MHD = true ∧ 1 < mhdConfig.PS2 ∧
    dFlux mhdConfig rampArgs (offset3 mhdConfig.PS2 1 1 0) 1 DENS = 4 := by
  refine ⟨rfl, by decide, ?_⟩
  rw [(C15_mhd_flux_shift mhdConfig rampArgs rfl).1 1 1 0 1 DENS (by decide) (by decide)
    (by decide)]
  norm_num [rampArgs, offset3, mhdConfig, didx_flux]

/-- C16: the finalized state of an output cell depends only on the input cell of that cell,
on the two faces of the cell along each axis, on the scalar parameters and, in an MHD build
with barotropic equation of state or dual energy, on the magnetic energy of the cell (in a
dual-energy build also on the status slot of the cell handed to the corrector): two calls
that agree on these and differ arbitrarily elsewhere, in every ghost-zone cell of `g_Input`
included, compute the same finalized state for the cell and, when both write it, store the
same values. -/
theorem C16_cell_locality (c : Config) (E : Ext) (a a1 : Args) (m m1 : Mem) (j : Nat)
    (hA : AgreeAt c E a a1 j)
    (hS : c.DUAL_ENERGY = true → m.g_DE_Status j = m1.g_DE_Status j) :
    finalCell c E a m j = finalCell c E a1 m1 j ∧
    (Written c E a m j → Written c E a1 m1 j → ∀ v, v < c.NCOMP_TOTAL →
      (Hydro_FullStepUpdate c E a m).g_Output v j
        = (Hydro_FullStepUpdate c E a1 m1).g_Output v j) := by
  obtain ⟨hdt, hdh, hme, hds, hnp, hnn, hni, heos, hin, hfl, hem⟩ := hA
  have hflux : fluxUpdate c a j = fluxUpdate c a1 j := by
    funext v
    unfold fluxUpdate
    by_cases hv : v < c.NCOMP_TOTAL
    · have hdF : ∀ d, d < 3 → dFlux c a j d v = dFlux c a1 j d v := by
        intro d hd
        obtain ⟨f1, f2⟩ := hfl d v hd hv
        rw [dFlux_eq_nb, dFlux_eq_nb, f1, f2]
      rw [if_pos hv, if_pos hv, hin v hv, hdt, hdh, hdF 0 (by decide), hdF 1 (by decide),
        hdF 2 (by decide)]
    · rw [if_neg hv, if_neg hv]
  have hbar : ∀ u, barotropicStep c E a j u = barotropicStep c E a1 j u := by
    intro u
    unfold barotropicStep
    cases hB : c.BAROTROPIC_EOS with
    | false => rfl
    | true =>
      have he : Emag c E a j = Emag c E a1 j := by
        cases hM : c.MHD with
        | false => unfold Emag; rw [hM]; rfl
        | true => exact hem hM (Or.inl hB)
      simp only [if_true]
      rw [hme, he]
  have hpas : ∀ u, passiveStep c a u = passiveStep c a1 u := by
    intro u
    unfold passiveStep normalizeStep
    rw [hnp, hnn, hni]
  have hdual : ∀ u, (dualEnergyStep c E a j (m.g_DE_Status j) u).1
      = (dualEnergyStep c E a1 j (m1.g_DE_Status j) u).1 := by
    intro u
    unfold dualEnergyStep
    cases hD : c.DUAL_ENERGY with
    | false => rfl
    | true =>
      have he : Emag c E a j = Emag c E a1 j := by
        cases hM : c.MHD with
        | false => unfold Emag; rw [hM]; rfl
        | true => exact hem hM (Or.inr hD)
      simp only [if_true]
      rw [heos, hds, he, hS hD]
  have hfin : finalCell c E a m j = finalCell c E a1 m1 j := by
    unfold finalCell cellUpdate
    rw [hflux, hbar, hpas, hdual]
  refine ⟨hfin, ?_⟩
  intro hw hw1 v hv
  rw [(written_output c E a m j hw).1 v hv, (written_output c E a1 m1 j hw1).1 v hv, hfin]

/-- Witness of C16: two 2x2x2 plain blocks that differ in the ghost-zone input cell of offset
0; output cell 3 is the same. -/
theorem C16_cell_locality_witness :
    AgreeAt plainConfig exampleExt (exampleArgs 0 0 1) (exampleArgs 1000 0 1) 3 ∧
    (exampleArgs 0 0 1).g_Input DENS 0 ≠ (exampleArgs 1000 0 1).g_Input DENS 0 ∧
    finalCell plainConfig exampleExt (exampleArgs 0 0 1) (exampleMem none) 3
      = finalCell plainConfig exampleExt (exampleArgs 1000 0 1) (exampleMem none) 3 := by
  have hA : AgreeAt plainConfig exampleExt (exampleArgs 0 0 1) (exampleArgs 1000 0 1) 3 := by
    refine ⟨rfl, rfl, rfl, rfl, rfl, rfl, rfl, rfl, ?_, ?_, ?_⟩
    · intro v _
      norm_num [exampleArgs, idx_in, i_out, j_out, k_out, IDX321, SQR, plainConfig]
    · intro d v _ _
      exact ⟨rfl, rfl⟩
    · intro h
      cases h
  refine ⟨hA, ?_, (C16_cell_locality plainConfig exampleExt (exampleArgs 0 0 1)
    (exampleArgs 1000 0 1) (exampleMem none) (exampleMem none) 3 hA (fun _ => rfl)).1⟩
  norm_num [exampleArgs]

/-- C18: the passive scalars are floored to `TINY_NUMBER > 0` before the normaliser is
called, so for every cell, every `NNorm >= 1` and every list of passive indices `NormIdx`, with
or without repetitions, the sum of the selected scalars handed to the normaliser (its
divisor) is at least `NNorm * TINY_NUMBER > 0`, whatever the input state and the fluxes. -/
theorem C18_normalizer_divisor_positive (c : Config) (E : Ext) (a : Args) (idx : Nat)
    (hT : 0 < c.TINY_NUMBER) (hNN : 1 ≤ a.NNorm)
    (hrange : ∀ n, n < a.NNorm → a.NormIdx n < c.NCOMP_PASSIVE) :
    passiveStep c a (barotropicStep c E a idx (fluxUpdate c a idx))
      = normalizeStep a (flooredCell c E a idx) ∧
    (List.range a.NNorm).foldl
        (fun s n => s + (fun p => flooredCell c E a idx (NCOMP_FLUID + p)) (a.NormIdx n)) 0
      = listedSum c E a idx ∧
    (a.NNorm : ℚ) * c.TINY_NUMBER ≤ listedSum c E a idx ∧
    0 < (a.NNorm : ℚ) * c.TINY_NUMBER ∧
    0 < listedSum c E a idx := by
  have hP : 0 < c.NCOMP_PASSIVE := by
    have := hrange 0 (by omega)
    omega
  have hterm : ∀ n, n ∈ Finset.range a.NNorm →
      c.TINY_NUMBER ≤ flooredCell c E a idx (NCOMP_FLUID + a.NormIdx n) := by
    intro n hn
    have hlt : NCOMP_FLUID + a.NormIdx n < c.NCOMP_TOTAL := by
      have := hrange n (Finset.mem_range.mp hn)
      unfold Config.NCOMP_TOTAL
      omega
    rw [flooredCell_passive c E a idx _ (Nat.le_add_right _ _) hlt]
    exact FMAX_ge_right _ _
  have hle : (a.NNorm : ℚ) * c.TINY_NUMBER ≤ listedSum c E a idx := by
    have h := Finset.sum_le_sum hterm
    rw [Finset.sum_const, Finset.card_range, nsmul_eq_mul] at h
    exact h
  have hpos : 0 < (a.NNorm : ℚ) * c.TINY_NUMBER := by
    have hN : (0 : ℚ) < (a.NNorm : ℚ) := by exact_mod_cast hNN
    exact mul_pos hN hT
  refine ⟨?_, ?_, hle, hpos, lt_of_lt_of_le hpos hle⟩
  · unfold passiveStep flooredCell
    rw [if_pos hP]
  · rw [foldl_add_eq_sum]
    rfl

/-- Witness of C18: the cell of the build with two passive scalars, whose second scalar has
the flux update -5. -/
theorem C18_normalizer_divisor_positive_witness :
    0 < passiveConfig.TINY_NUMBER ∧ 1 ≤ passiveArgs.NNorm ∧
    fluxUpdate passiveConfig passiveArgs 0 6 = -5 ∧
    0 < listedSum passiveConfig exampleExt passiveArgs 0 := by
  refine ⟨by norm_num [passiveConfig], by decide, ?_,
    (C18_normalizer_divisor_positive passiveConfig exampleExt passiveArgs 0
      (by norm_num [passiveConfig]) (by decide) (fun n hn => hn)).2.2.2.2⟩
  norm_num [fluxUpdate, passiveConfig, passiveArgs, Config.NCOMP_TOTAL, NCOMP_FLUID, dFlux]

end GAMER
